import Mathlib

/-!
Shallow embedding of the scm-record interactive selection engine
(`src/scm-record/src/ui/mod.rs`) together with the record data model it
operates on.  The data model and its tristate helpers (`types.rs`) are not
part of the provided sources, so they are modelled from the specification;
everything under `ui/mod.rs` is translated directly from the source.
-/

/-- Modelled from the spec: the three-valued checkbox state from the missing
`types.rs` (`Tristate`).  The Rust variant `Partial` is spelled `mixed`
here because `partial` is a Lean keyword. -/
inductive Tristate where
  | false
  | true
  | mixed
deriving DecidableEq, Repr

/-- Modelled from the spec: whether a changed line was added or removed
(`ChangeType` from the missing `types.rs`). -/
inductive ChangeType where
  | added
  | removed
deriving DecidableEq, Repr

/-- Modelled from the spec: the mode of a file (`FileMode` from the missing
`types.rs`): a Unix mode word, or absent on one side of the diff. -/
inductive FileMode where
  | unix (mode : Nat)
  | absent
deriving DecidableEq, Repr

/-- Modelled from the spec: a single changed line inside a changed section
(`SectionChangedLine` from the missing `types.rs`). -/
structure SectionChangedLine where
  is_checked : Bool
  change_type : ChangeType
  content : String
deriving DecidableEq, Repr

/-- Modelled from the spec: a diff section (`Section` from the missing
`types.rs`): unchanged context, a changed hunk, a file-mode transition
pseudo-section, or an opaque binary change. -/
inductive Section where
  | unchanged (lines : List String)
  | changed (lines : List SectionChangedLine)
  | fileMode (is_checked : Bool) (mode : FileMode)
  | binary (is_checked : Bool) (old_description : Option String)
      (new_description : Option String)
deriving DecidableEq, Repr

/-- Modelled from the spec: a file under review (`File` from the missing
`types.rs`). -/
structure File where
  old_path : Option String
  path : String
  file_mode : FileMode
  sections : List Section
deriving DecidableEq, Repr

/-- Modelled from the spec: a prospective commit (`Commit` from the missing
`types.rs`); only the message matters to the engine. -/
structure Commit where
  message : Option String
deriving DecidableEq, Repr

/-- Modelled from the spec: the root input/output state (`RecordState` from
the missing `types.rs`). -/
structure RecordState where
  is_read_only : Bool
  commits : List Commit
  files : List File
deriving DecidableEq, Repr

/-- Key of a file (`FileKey` in `ui/components/file.rs`). -/
structure FileKey where
  commit_idx : Nat
  file_idx : Nat
deriving DecidableEq, Repr

/-- Key of a section (`SectionKey` in `ui/components/section.rs`). -/
structure SectionKey where
  commit_idx : Nat
  file_idx : Nat
  section_idx : Nat
deriving DecidableEq, Repr

/-- Key of a changed line (`LineKey` in `ui/components/line.rs`). -/
structure LineKey where
  commit_idx : Nat
  file_idx : Nat
  section_idx : Nat
  line_idx : Nat
deriving DecidableEq, Repr

/-- Focusable item key (`SelectionKey` in `ui/components/app.rs`).  The
Rust variant `Section` is spelled `sec` because `section` is a Lean
keyword. -/
inductive SelectionKey where
  | none
  | file (key : FileKey)
  | sec (key : SectionKey)
  | line (key : LineKey)
deriving DecidableEq, Repr

/-- Error type of the engine (`RecordError`); only the variants the
embedded operations can produce are modelled. -/
inductive RecordError where
  | bug (msg : String)
  | cancelled
deriving DecidableEq, Repr

/-- Result of running an embedded operation: normal return, a
`RecordError`, or a Rust panic (out-of-bounds slice indexing). -/
inductive Outcome (α : Type) where
  | ok (val : α)
  | err (e : RecordError)
  | panicked (msg : String)
deriving DecidableEq, Repr

/-- Modelled from the spec: `Section::is_editable` from the missing
`types.rs`; only Changed, FileMode and Binary sections are editable. -/
def Section.is_editable : Section → Bool
  | .unchanged _ => Bool.false
  | .changed _ => Bool.true
  | .fileMode _ _ => Bool.true
  | .binary _ _ _ => Bool.true

/-- Tristate view of a plain checkbox (the spec's "False/True mirroring
`is_checked`"). -/
def tristateOfBool (b : Bool) : Tristate :=
  match b with
  | Bool.false => Tristate.false
  | Bool.true => Tristate.true

/-- Modelled from the spec: the fold step of the tristate aggregation,
`a ⊕ a = a`, anything else `Partial`. -/
def Tristate.combine (a b : Tristate) : Tristate :=
  if a = b then b else Tristate.mixed

/-- Modelled from the spec: fold a list of tristates with `Tristate.combine`;
an empty collection aggregates to `False`. -/
def combineAll (ts : List Tristate) : Tristate :=
  ((ts.foldl (fun acc t =>
      match acc with
      | Option.none => some t
      | some a => some (a.combine t)) Option.none).getD Tristate.false)

/-- Modelled from the spec: `Section::tristate` from the missing `types.rs`:
Unchanged is False, a Changed section folds its line checkboxes, FileMode
and Binary mirror `is_checked`. -/
def Section.tristate : Section → Tristate
  | .unchanged _ => Tristate.false
  | .changed lines => combineAll (lines.map fun l => tristateOfBool l.is_checked)
  | .fileMode is_checked _ => tristateOfBool is_checked
  | .binary is_checked _ _ => tristateOfBool is_checked

/-- Modelled from the spec: `File::tristate` from the missing `types.rs`:
the fold of `section_tristate` over the file's editable sections. -/
def File.tristate (f : File) : Tristate :=
  combineAll ((f.sections.filter Section.is_editable).map Section.tristate)

/-- Modelled from the spec: `Section::set_checked` from the missing
`types.rs`: a Changed section sets every line's checkbox, FileMode and
Binary set the flag directly, Unchanged is untouched. -/
def Section.set_checked (sec : Section) (checked : Bool) : Section :=
  match sec with
  | .unchanged lines => .unchanged lines
  | .changed lines => .changed (lines.map fun l => { l with is_checked := checked })
  | .fileMode _ mode => .fileMode checked mode
  | .binary _ old_description new_description =>
      .binary checked old_description new_description

/-- Modelled from the spec: `File::set_checked` from the missing `types.rs`:
set every editable section's checkbox (Unchanged sections are unaffected
by `Section.set_checked`). -/
def File.set_checked (f : File) (checked : Bool) : File :=
  { f with sections := f.sections.map (Section.set_checked · checked) }

/-- Modelled from the spec: `File::toggle_all` from the missing `types.rs`:
the per-file toggle rule applied to the file itself — the new checkbox
value is true exactly when the file's tristate is False. -/
def File.toggle_all (f : File) : File :=
  f.set_checked (f.tristate == Tristate.false)

/-- Side effects produced by the primary phase of `toggle_item`
(`ToggleSideEffects` in `ui/mod.rs`). -/
inductive ToggleSideEffects where
  | toggledModeChangeSection (key : SectionKey) (old_mode : FileMode)
      (new_mode : FileMode) (toggled_to : Bool)
  | toggledChangedSection (key : SectionKey) (toggled_to : Bool)
  | toggledChangedLine (key : LineKey) (toggled_to : Bool)
deriving DecidableEq, Repr

/-- Lookup of a file by key (`Recorder::file` in `ui/mod.rs`); the commit
index of the key is discarded by the destructuring in the source. -/
def RecordState.file (s : RecordState) (file_key : FileKey) : Outcome File :=
  match s.files[file_key.file_idx]? with
  | some file => .ok file
  | Option.none => .err (.bug s!"Out-of-bounds file key: {toString (repr file_key)}")

/-- Lookup of a section by key (`Recorder::section` in `ui/mod.rs`; named
`getSection` because `section` is a Lean keyword). -/
def RecordState.getSection (s : RecordState) (section_key : SectionKey) : Outcome Section :=
  match s.file ⟨section_key.commit_idx, section_key.file_idx⟩ with
  | .err e => .err e
  | .panicked m => .panicked m
  | .ok file =>
    match file.sections[section_key.section_idx]? with
    | some sec => .ok sec
    | Option.none => .err (.bug s!"Out-of-bounds section key: {toString (repr section_key)}")

/-- Mutating visitor of a file (`Recorder::visit_file` in `ui/mod.rs`). -/
def RecordState.visit_file {α : Type} (s : RecordState) (file_key : FileKey)
    (f : File → File × α) : Outcome (RecordState × α) :=
  match s.files[file_key.file_idx]? with
  | some file =>
      let (file', a) := f file
      .ok ({ s with files := s.files.set file_key.file_idx file' }, a)
  | Option.none => .err (.bug s!"Out-of-bounds file key: {toString (repr file_key)}")

/-- Mutating visitor of the file containing a section
(`Recorder::visit_file_for_section` in `ui/mod.rs`); only the file index
of the key is consulted, and the error message prints just that index. -/
def RecordState.visit_file_for_section {α : Type} (s : RecordState)
    (section_key : SectionKey) (f : File → File × α) : Outcome (RecordState × α) :=
  match s.files[section_key.file_idx]? with
  | some file =>
      let (file', a) := f file
      .ok ({ s with files := s.files.set section_key.file_idx file' }, a)
  | Option.none => .err (.bug s!"Out-of-bounds file key: {toString (repr section_key.file_idx)}")

/-- Mutating visitor of the file containing a line
(`Recorder::visit_file_for_line` in `ui/mod.rs`). -/
def RecordState.visit_file_for_line {α : Type} (s : RecordState)
    (line_key : LineKey) (f : File → File × α) : Outcome (RecordState × α) :=
  match s.files[line_key.file_idx]? with
  | some file =>
      let (file', a) := f file
      .ok ({ s with files := s.files.set line_key.file_idx file' }, a)
  | Option.none => .err (.bug s!"Out-of-bounds file key: {toString (repr line_key.file_idx)}")

/-- Mutating visitor of a section (`Recorder::visit_section` in
`ui/mod.rs`). -/
def RecordState.visit_section {α : Type} (s : RecordState)
    (section_key : SectionKey) (f : Section → Section × α) : Outcome (RecordState × α) :=
  match s.files[section_key.file_idx]? with
  | Option.none =>
      .err (.bug s!"Out-of-bounds file for section key: {toString (repr section_key)}")
  | some file =>
    match file.sections[section_key.section_idx]? with
    | some sec =>
        let (sec', a) := f sec
        let file' := { file with sections := file.sections.set section_key.section_idx sec' }
        .ok ({ s with files := s.files.set section_key.file_idx file' }, a)
    | Option.none => .err (.bug s!"Out-of-bounds section key: {toString (repr section_key)}")

/-- Mutating visitor of a changed line (`Recorder::visit_line` in
`ui/mod.rs`).  The source indexes `files[file_idx].sections[section_idx]`
and `lines[line_idx]` directly, so an out-of-bounds index panics instead
of returning a `Bug` error; a line key whose section exists but is not a
Changed section is a no-op returning `none`. -/
def RecordState.visit_line {α : Type} (s : RecordState) (line_key : LineKey)
    (f : SectionChangedLine → SectionChangedLine × Option α) :
    Outcome (RecordState × Option α) :=
  match s.files[line_key.file_idx]? with
  | Option.none => .panicked "index out of bounds"
  | some file =>
    match file.sections[line_key.section_idx]? with
    | Option.none => .panicked "index out of bounds"
    | some sec =>
      match sec with
      | .changed lines =>
        match lines[line_key.line_idx]? with
        | Option.none => .panicked "index out of bounds"
        | some line =>
            let (line', a) := f line
            let sec' := Section.changed (lines.set line_key.line_idx line')
            let file' := { file with sections := file.sections.set line_key.section_idx sec' }
            .ok ({ s with files := s.files.set line_key.file_idx file' }, a)
      | _ => .ok (s, Option.none)

/-- Tristate of a file by key (`Recorder::file_tristate` in `ui/mod.rs`). -/
def RecordState.file_tristate (s : RecordState) (file_key : FileKey) : Outcome Tristate :=
  match s.file file_key with
  | .ok file => .ok file.tristate
  | .err e => .err e
  | .panicked m => .panicked m

/-- Tristate of a section by key (`Recorder::section_tristate` in
`ui/mod.rs`). -/
def RecordState.section_tristate (s : RecordState) (section_key : SectionKey) : Outcome Tristate :=
  match s.getSection section_key with
  | .ok sec => .ok sec.tristate
  | .err e => .err e
  | .panicked m => .panicked m

/-- Body of the closure at `ui/mod.rs:1175`: check every Changed section of
the file (coherence after checking a deletion). -/
def File.check_all_changed_sections (file : File) : File :=
  { file with sections := file.sections.map fun sec =>
      match sec with
      | .changed _ => sec.set_checked Bool.true
      | _ => sec }

/-- Body of the closure at `ui/mod.rs:1186`: uncheck every section of the
file (coherence after unchecking a creation). -/
def File.uncheck_all_sections (file : File) : File :=
  { file with sections := file.sections.map (Section.set_checked · Bool.false) }

/-- Body of the closures at `ui/mod.rs:1194` and `ui/mod.rs:1213`: after a
Changed section or line was toggled to `toggled_to`, adjust every FileMode
section of the file. -/
def File.apply_changed_coherence (file : File) (toggled_to : Bool) : File :=
  { file with sections := file.sections.map fun sec =>
      match sec with
      | .fileMode is_checked mode =>
          let is_checked := if !toggled_to && mode == FileMode.absent then Bool.false else is_checked
          let is_checked := if toggled_to && file.file_mode == FileMode.absent then Bool.true else is_checked
          .fileMode is_checked mode
      | _ => sec }

/-- Application of the side-effect branches of `toggle_item`
(`ui/mod.rs:1165`-`1231`). -/
def RecordState.apply_side_effects (s : RecordState) (se : ToggleSideEffects) :
    Outcome RecordState :=
  match se with
  | .toggledModeChangeSection section_key old_mode new_mode toggled_to =>
    let afterCheck : Outcome RecordState :=
      if toggled_to && new_mode == FileMode.absent then
        match s.visit_file_for_section section_key (fun file => (file.check_all_changed_sections, ())) with
        | .ok (s', _) => .ok s'
        | .err e => .err e
        | .panicked m => .panicked m
      else .ok s
    match afterCheck with
    | .err e => .err e
    | .panicked m => .panicked m
    | .ok s' =>
      if !toggled_to && old_mode == FileMode.absent then
        match s'.visit_file_for_section section_key (fun file => (file.uncheck_all_sections, ())) with
        | .ok (s'', _) => .ok s''
        | .err e => .err e
        | .panicked m => .panicked m
      else .ok s'
  | .toggledChangedSection section_key toggled_to =>
    match s.visit_file_for_section section_key (fun file => (file.apply_changed_coherence toggled_to, ())) with
    | .ok (s', _) => .ok s'
    | .err e => .err e
    | .panicked m => .panicked m
  | .toggledChangedLine line_key toggled_to =>
    match s.visit_file_for_line line_key (fun file => (file.apply_changed_coherence toggled_to, ())) with
    | .ok (s', _) => .ok s'
    | .err e => .err e
    | .panicked m => .panicked m

/-- Toggle of the focused item (`Recorder::toggle_item` in
`ui/mod.rs:1105`-`1235`): read-only short-circuit, the primary toggle of
the keyed item, then the coherence side effects. -/
def RecordState.toggle_item (s : RecordState) (selection : SelectionKey) :
    Outcome RecordState :=
  if s.is_read_only then .ok s
  else
    let staged : Outcome (RecordState × Option ToggleSideEffects) :=
      match selection with
      | .none => .ok (s, Option.none)
      | .file file_key =>
        match s.file_tristate file_key with
        | .err e => .err e
        | .panicked m => .panicked m
        | .ok tristate =>
          let is_checked_new := match tristate with
            | Tristate.false => Bool.true
            | _ => Bool.false
          match s.visit_file file_key (fun file => (file.set_checked is_checked_new, ())) with
          | .err e => .err e
          | .panicked m => .panicked m
          | .ok (s', _) => .ok (s', Option.none)
      | .sec section_key =>
        match s.section_tristate section_key with
        | .err e => .err e
        | .panicked m => .panicked m
        | .ok tristate =>
          let is_checked_new := match tristate with
            | Tristate.false => Bool.true
            | _ => Bool.false
          match s.visit_file_for_section section_key (fun file => (file, file.file_mode)) with
          | .err e => .err e
          | .panicked m => .panicked m
          | .ok (s₁, old_file_mode) =>
            match s₁.visit_section section_key (fun sec =>
                let sec' := sec.set_checked is_checked_new
                (sec',
                  match sec' with
                  | .fileMode _ mode =>
                      some (ToggleSideEffects.toggledModeChangeSection section_key
                        old_file_mode mode is_checked_new)
                  | .changed _ =>
                      some (ToggleSideEffects.toggledChangedSection section_key is_checked_new)
                  | _ => Option.none)) with
            | .err e => .err e
            | .panicked m => .panicked m
            | .ok (s₂, se) => .ok (s₂, se)
      | .line line_key =>
        match s.visit_line line_key (fun line =>
            let line' := { line with is_checked := !line.is_checked }
            (line', some (ToggleSideEffects.toggledChangedLine line_key line'.is_checked))) with
        | .err e => .err e
        | .panicked m => .panicked m
        | .ok (s', se) => .ok (s', se)
    match staged with
    | .err e => .err e
    | .panicked m => .panicked m
    | .ok (s', Option.none) => .ok s'
    | .ok (s', some se) => s'.apply_side_effects se

/-- Toggle of every file (`Recorder::toggle_all` in `ui/mod.rs:1237`). -/
def RecordState.toggle_all (s : RecordState) : RecordState :=
  if s.is_read_only then s
  else { s with files := s.files.map File.toggle_all }

/-- Uniform toggle of every file (`Recorder::toggle_all_uniform` in
`ui/mod.rs:1247`). -/
def RecordState.toggle_all_uniform (s : RecordState) : RecordState :=
  if s.is_read_only then s
  else
    let tristate :=
      ((s.files.map File.tristate).foldl (fun acc elem =>
          match acc, elem with
          | Option.none, tristate => some tristate
          | some acc_tristate, tristate =>
              if acc_tristate == tristate then some tristate else some Tristate.mixed)
        Option.none).getD Tristate.false
    let checked := match tristate with
      | Tristate.false => Bool.true
      | Tristate.mixed => Bool.true
      | Tristate.true => Bool.false
    { s with files := s.files.map (File.set_checked · checked) }

/-- Quit-dialog button (`QuitDialogButtonId` in `ui/components/dialog.rs`). -/
inductive QuitDialogButtonId where
  | quit
  | goBack
deriving DecidableEq, Repr

/-- Quit-confirmation dialog state (`QuitDialog` in
`ui/components/dialog.rs`). -/
structure QuitDialog where
  num_commit_messages : Nat
  num_changed_files : Nat
  focused_button : QuitDialogButtonId
deriving DecidableEq, Repr

/-- Help dialog state (`HelpDialog` in `ui/components/help_dialog.rs`);
it carries no data. -/
structure HelpDialog where
deriving DecidableEq, Repr

/-- The engine state of the `Recorder` (`ui/mod.rs:67`) restricted to the
fields the embedded operations consult: the record state, the expansion
set, the focused selection, the focused commit and the two dialogs. -/
structure Recorder where
  state : RecordState
  expanded_items : Finset SelectionKey
  selection_key : SelectionKey
  focused_commit_idx : Nat
  quit_dialog : Option QuitDialog
  help_dialog : Option HelpDialog
deriving DecidableEq

/-- Canonical enumeration of every selectable key
(`Recorder::all_selection_keys` in `ui/mod.rs:726`): commits beyond index 0
are skipped, every file contributes a File key, Changed sections a Section
key followed by one Line key per line, FileMode and Binary sections a
single Section key, Unchanged sections nothing. -/
def Recorder.all_selection_keys (r : Recorder) : List SelectionKey :=
  (List.range r.state.commits.length).flatMap fun commit_idx =>
    if commit_idx > 0 then []
    else r.state.files.enum.flatMap fun (file_idx, file) =>
      SelectionKey.file ⟨commit_idx, file_idx⟩ ::
      file.sections.enum.flatMap fun (section_idx, sec) =>
        match sec with
        | .unchanged _ => []
        | .changed lines =>
            SelectionKey.sec ⟨commit_idx, file_idx, section_idx⟩ ::
            (List.range lines.length).map fun line_idx =>
              SelectionKey.line ⟨commit_idx, file_idx, section_idx, line_idx⟩
        | .fileMode _ _ => [SelectionKey.sec ⟨commit_idx, file_idx, section_idx⟩]
        | .binary _ _ _ => [SelectionKey.sec ⟨commit_idx, file_idx, section_idx⟩]

/-- Expansion tristate of a file (`Recorder::file_expanded` in
`ui/mod.rs:1496`): False when the file key is not expanded, otherwise
Partial when some Changed section is unexpanded, else True.  The source
unwraps the file lookup; the unreachable missing-file case is mapped to
True here (the callers only pass enumerated keys). -/
def Recorder.file_expanded (r : Recorder) (file_key : FileKey) : Tristate :=
  if ¬ (SelectionKey.file file_key ∈ r.expanded_items) then Tristate.false
  else
    match r.state.files[file_key.file_idx]? with
    | Option.none => Tristate.true
    | some file =>
      let any_section_unexpanded := file.sections.enum.any fun (section_idx, sec) =>
        match sec with
        | .changed _ =>
            !(decide (SelectionKey.sec ⟨file_key.commit_idx, file_key.file_idx, section_idx⟩
                ∈ r.expanded_items))
        | _ => Bool.false
      if any_section_unexpanded then Tristate.mixed else Tristate.true

/-- Visible subset of the canonical key list together with the position of
the current selection in it (`Recorder::find_selection` in
`ui/mod.rs:774`). -/
def Recorder.find_selection (r : Recorder) : List SelectionKey × Option Nat :=
  let visible_keys := r.all_selection_keys.filter fun key =>
    match key with
    | .none => Bool.false
    | .file _ => Bool.true
    | .sec section_key =>
      match r.file_expanded ⟨section_key.commit_idx, section_key.file_idx⟩ with
      | Tristate.false => Bool.false
      | _ => Bool.true
    | .line line_key =>
      decide (SelectionKey.file ⟨line_key.commit_idx, line_key.file_idx⟩ ∈ r.expanded_items) &&
      decide (SelectionKey.sec ⟨line_key.commit_idx, line_key.file_idx, line_key.section_idx⟩
        ∈ r.expanded_items)
  (visible_keys, visible_keys.findIdx? (· == r.selection_key))

/-- Discriminant comparison used by `advance_to_next_of_kind`
(the match at `ui/mod.rs:997`). -/
def SelectionKey.same_kind : SelectionKey → SelectionKey → Bool
  | .none, _ => Bool.true
  | .file _, .file _ => Bool.true
  | .sec _, .sec _ => Bool.true
  | .line _, .line _ => Bool.true
  | _, _ => Bool.false

/-- Post-toggle cursor advance (`Recorder::advance_to_next_of_kind` in
`ui/mod.rs:988`): scan the keys after the current selection for the first
one of the same kind; fall back to the current selection, or to `None`
when the current selection has no index. -/
def Recorder.advance_to_next_of_kind (r : Recorder) : SelectionKey :=
  let (keys, index) := r.find_selection
  match index with
  | Option.none => SelectionKey.none
  | some index =>
    (((keys.drop (index + 1)).find? fun key => r.selection_key.same_kind key).getD
      r.selection_key)

/-- Ancestor expansion on selection change (`Recorder::expand_item_ancestors`
in `ui/mod.rs:1274`). -/
def Recorder.expand_item_ancestors (r : Recorder) (selection : SelectionKey) : Recorder :=
  match selection with
  | .none => r
  | .file _ => r
  | .sec section_key =>
    { r with expanded_items :=
        (insert (SelectionKey.file ⟨section_key.commit_idx, section_key.file_idx⟩)
          r.expanded_items) }
  | .line line_key =>
    { r with expanded_items :=
        (insert (SelectionKey.sec ⟨line_key.commit_idx, line_key.file_idx, line_key.section_idx⟩)
          (insert (SelectionKey.file ⟨line_key.commit_idx, line_key.file_idx⟩)
            r.expanded_items)) }

/-- Direct expansion update (`Recorder::set_expand_item` in
`ui/mod.rs:1307`). -/
def Recorder.set_expand_item (r : Recorder) (selection : SelectionKey)
    (is_expanded : Bool) : Recorder :=
  if is_expanded then { r with expanded_items := insert selection r.expanded_items }
  else { r with expanded_items := r.expanded_items.erase selection }

/-- Expansion toggle of one item (`Recorder::toggle_expand_item` in
`ui/mod.rs:1315`); Line keys do nothing. -/
def Recorder.toggle_expand_item (r : Recorder) (selection : SelectionKey) : Recorder :=
  match selection with
  | .none => r
  | .file file_key =>
    if SelectionKey.file file_key ∈ r.expanded_items then
      { r with expanded_items := r.expanded_items.erase (SelectionKey.file file_key) }
    else { r with expanded_items := insert (SelectionKey.file file_key) r.expanded_items }
  | .sec section_key =>
    if SelectionKey.sec section_key ∈ r.expanded_items then
      { r with expanded_items := r.expanded_items.erase (SelectionKey.sec section_key) }
    else { r with expanded_items := insert (SelectionKey.sec section_key) r.expanded_items }
  | .line _ => r

/-- Initial expansion (`Recorder::expand_initial_items` in `ui/mod.rs:1339`):
exactly the Section keys of the canonical enumeration. -/
def Recorder.expand_initial_items (r : Recorder) : Recorder :=
  { r with expanded_items :=
      ((r.all_selection_keys.filter fun selection_key =>
        match selection_key with
        | .sec _ => Bool.true
        | _ => Bool.false).toFinset) }

/-- Global expansion toggle (`Recorder::toggle_expand_all` in
`ui/mod.rs:1350`): when everything is already expanded collapse everything
(moving a Section/Line selection up to its file), otherwise expand to the
full canonical key set. -/
def Recorder.toggle_expand_all (r : Recorder) : Recorder :=
  let all_selection_keys := r.all_selection_keys.toFinset
  if r.expanded_items = all_selection_keys then
    { r with
      selection_key :=
        (match r.selection_key with
        | .none => SelectionKey.none
        | .file file_key => SelectionKey.file file_key
        | .sec section_key => SelectionKey.file ⟨section_key.commit_idx, section_key.file_idx⟩
        | .line line_key => SelectionKey.file ⟨line_key.commit_idx, line_key.file_idx⟩),
      expanded_items := ∅ }
  else { r with expanded_items := all_selection_keys }

/-- Input events (`Event` in `ui/event.rs`), restricted to the alphabet the
embedded reducer arms need. -/
inductive Event where
  | help
  | quitAccept
  | quitCancel
  | quitInterrupt
  | quitEscape
  | toggleItem
  | toggleItemAndAdvance
deriving DecidableEq, Repr

/-- Engine actions produced by the reducer (`StateUpdate` in `ui/mod.rs:31`),
restricted to the variants the embedded reducer arms produce. -/
inductive StateUpdate where
  | noUpdate
  | setQuitDialog (dialog : Option QuitDialog)
  | quitAccept
  | quitCancel
  | setHelpDialog (dialog : Option HelpDialog)
  | toggleItem (key : SelectionKey)
  | toggleItemAndAdvance (key : SelectionKey) (new_key : SelectionKey)
deriving DecidableEq, Repr

/-- Count of non-empty commit messages (`Recorder::num_user_commit_messages`
in `ui/mod.rs:687`). -/
def Recorder.num_user_commit_messages (r : Recorder) : Outcome Nat :=
  .ok ((r.state.commits.map fun commit =>
    match commit.message with
    | some message => if message.isEmpty then 0 else 1
    | Option.none => 0).sum)

/-- Loop body of `Recorder::num_user_file_changes` (`ui/mod.rs:705`): walk
the file indices, counting those whose tristate at the focused commit is
not False, propagating lookup errors. -/
def Recorder.num_file_changes_from (r : Recorder) (result : Nat) (idxs : List Nat) :
    Outcome Nat :=
  match idxs with
  | [] => .ok result
  | file_idx :: rest =>
    match r.state.file_tristate ⟨r.focused_commit_idx, file_idx⟩ with
    | .err e => .err e
    | .panicked m => .panicked m
    | .ok Tristate.false => r.num_file_changes_from result rest
    | .ok _ => r.num_file_changes_from (result + 1) rest

/-- Count of files with a non-False tristate (`Recorder::num_user_file_changes`
in `ui/mod.rs:705`). -/
def Recorder.num_user_file_changes (r : Recorder) : Outcome Nat :=
  r.num_file_changes_from 0 (List.range r.state.files.length)

/-- Guard of the reducer arm at `ui/mod.rs:503`: the events that close an
open help dialog. -/
def Event.closes_help : Event → Bool
  | .help => Bool.true
  | .quitEscape => Bool.true
  | .quitCancel => Bool.true
  | .toggleItem => Bool.true
  | .toggleItemAndAdvance => Bool.true
  | _ => Bool.false

/-- Event reducer (`Recorder::handle_event` in `ui/mod.rs:492`) restricted
to the embedded event alphabet, with the arms in source order. -/
def Recorder.handle_event (r : Recorder) (ev : Event) : Outcome StateUpdate :=
  if r.help_dialog.isSome && ev.closes_help then .ok (.setHelpDialog Option.none)
  else
    match r.quit_dialog, ev with
    | _, .help => .ok (.setHelpDialog (some ⟨⟩))
    | Option.none, .quitAccept => .ok .quitAccept
    | some _, .quitAccept => .ok .noUpdate
    | Option.none, .quitCancel | Option.none, .quitInterrupt =>
      match r.num_user_commit_messages with
      | .err e => .err e
      | .panicked m => .panicked m
      | .ok num_commit_messages =>
        match r.num_user_file_changes with
        | .err e => .err e
        | .panicked m => .panicked m
        | .ok num_changed_files =>
          if num_commit_messages > 0 || num_changed_files > 0 then
            .ok (.setQuitDialog (some ⟨num_commit_messages, num_changed_files,
              QuitDialogButtonId.quit⟩))
          else .ok .quitCancel
    | some _, .quitCancel => .ok (.setQuitDialog Option.none)
    | some _, .quitInterrupt => .ok .quitCancel
    | some quit_dialog, .toggleItem | some quit_dialog, .toggleItemAndAdvance =>
      (match quit_dialog.focused_button with
      | .quit => .ok .quitCancel
      | .goBack => .ok (.setQuitDialog Option.none))
    | Option.none, .toggleItem => .ok (.toggleItem r.selection_key)
    | Option.none, .toggleItemAndAdvance =>
      .ok (.toggleItemAndAdvance r.selection_key r.advance_to_next_of_kind)
    | some _, .quitEscape => .ok (.setQuitDialog Option.none)
    | Option.none, .quitEscape => .ok .noUpdate

/-- Driver reaction of `run_inner` to a reducer update (`ui/mod.rs:205`-`219`
restricted to the quit updates): a `QuitCancel` update makes the engine
return the `Cancelled` error at once. -/
def StateUpdate.driver_error : StateUpdate → Option RecordError
  | .quitCancel => some RecordError.cancelled
  | _ => Option.none

/-- Property used in the claim statements: every line of a Changed section
carries the checkbox value `v`; FileMode and Binary carry `v` directly;
Unchanged sections carry nothing. -/
def Section.uniform_checked (sec : Section) (v : Bool) : Bool :=
  match sec with
  | .unchanged _ => Bool.true
  | .changed lines => lines.all fun l => l.is_checked == v
  | .fileMode c _ => c == v
  | .binary c _ _ => c == v

/-- Property used in the claim statements: a Changed section has every line
checked (other sections are unconstrained). -/
def Section.all_lines_checked (sec : Section) : Bool :=
  match sec with
  | .changed lines => lines.all fun l => l.is_checked
  | _ => Bool.true

/-- Property used in the claim statements: the section carries no check at
all — every changed line unchecked and every FileMode/Binary flag down. -/
def Section.fully_unchecked (sec : Section) : Bool :=
  match sec with
  | .unchanged _ => Bool.true
  | .changed lines => lines.all fun l => !l.is_checked
  | .fileMode c _ => !c
  | .binary c _ _ => !c

/-- Property used in the claim statements: a FileMode section whose mode is
Absent is unchecked. -/
def Section.fm_absent_unchecked (sec : Section) : Bool :=
  match sec with
  | .fileMode c m => if m == FileMode.absent then !c else Bool.true
  | _ => Bool.true

/-- Property used in the claim statements: a FileMode section is checked. -/
def Section.fm_checked (sec : Section) : Bool :=
  match sec with
  | .fileMode c _ => c
  | _ => Bool.true

/-- Property used in the C4 analysis: the file contains no FileMode
pseudo-section, so the coherence rules cannot fire. -/
def File.no_filemode_sections (f : File) : Bool :=
  f.sections.all fun sec =>
    match sec with
    | .fileMode _ _ => Bool.false
    | _ => Bool.true

/-- Two toggles of the same key in succession, propagating failure of the
first one. -/
def RecordState.toggle_twice (s : RecordState) (selection : SelectionKey) :
    Outcome RecordState :=
  match s.toggle_item selection with
  | .ok s1 => s1.toggle_item selection
  | o => o

/-- Abbreviation for the state with one file replaced, the common result
shape of the mutating visitors. -/
def RecordState.set_file (s : RecordState) (i : Nat) (file : File) : RecordState :=
  { s with files := s.files.set i file }

/-- Sample state: one file with a single Changed section holding one
unchecked added line. -/
def sample_line_state : RecordState :=
  ⟨Bool.false, [⟨Option.none⟩, ⟨Option.none⟩],
    [⟨Option.none, "a", FileMode.unix 420,
      [Section.changed [⟨Bool.false, ChangeType.added, "x"⟩]]⟩]⟩

/-- Sample state: a partially checked file (one line checked, one not). -/
def sample_mixed_state : RecordState :=
  ⟨Bool.false, [⟨Option.none⟩, ⟨Option.none⟩],
    [⟨Option.none, "a", FileMode.unix 420,
      [Section.changed [⟨Bool.true, ChangeType.added, "x"⟩,
        ⟨Bool.false, ChangeType.added, "y"⟩]]⟩]⟩

/-- Sample read-only state. -/
def sample_read_only_state : RecordState :=
  ⟨Bool.true, [⟨Option.none⟩, ⟨Option.none⟩],
    [⟨Option.none, "a", FileMode.unix 420,
      [Section.changed [⟨Bool.false, ChangeType.added, "x"⟩]]⟩]⟩

/-- Sample state for the file-mode coherence rules: a deletion pseudo-section
(target mode Absent) next to a Changed section with one unchecked removed
line. -/
def sample_deletion_state : RecordState :=
  ⟨Bool.false, [⟨Option.none⟩, ⟨Option.none⟩],
    [⟨Option.none, "a", FileMode.unix 420,
      [Section.fileMode Bool.false FileMode.absent,
       Section.changed [⟨Bool.false, ChangeType.removed, "x"⟩]]⟩]⟩

/-- Sample state for the creation coherence rules: a file whose old mode is
Absent, a checked creation pseudo-section and a checked added line. -/
def sample_creation_state : RecordState :=
  ⟨Bool.false, [⟨Option.none⟩, ⟨Option.none⟩],
    [⟨Option.none, "a", FileMode.absent,
      [Section.fileMode Bool.true (FileMode.unix 420),
       Section.changed [⟨Bool.true, ChangeType.added, "x"⟩]]⟩]⟩

/-- Sample file of `sample_line_state`. -/
def sample_line_file : File :=
  ⟨Option.none, "a", FileMode.unix 420,
    [Section.changed [⟨Bool.false, ChangeType.added, "x"⟩]]⟩

/-- Replacement of the commit index of a selection key; two keys are
"identical except for commit_idx" exactly when they are `k.with_commit c₁`
and `k.with_commit c₂` for some `k`. -/
def SelectionKey.with_commit (k : SelectionKey) (commit_idx : Nat) : SelectionKey :=
  match k with
  | .none => .none
  | .file fk => .file { fk with commit_idx := commit_idx }
  | .sec sk => .sec { sk with commit_idx := commit_idx }
  | .line lk => .line { lk with commit_idx := commit_idx }

/-- Two outcomes that agree on success (with equal values) and fail the
same way; only the text of the error message may differ. -/
def Outcome.same_result {α : Type} : Outcome α → Outcome α → Prop
  | .ok a, .ok b => a = b
  | .err _, .err _ => True
  | .panicked _, .panicked _ => True
  | _, _ => False

/-- Whether the file at index `i` counts as changed for the quit dialog:
its tristate is not False. -/
def Recorder.file_changed_at (r : Recorder) (i : Nat) : Bool :=
  match r.state.files[i]? with
  | some file => !(file.tristate == Tristate.false)
  | Option.none => Bool.false

/-- Sample recorder on top of `sample_line_state` with no dialogs. -/
def sample_recorder : Recorder :=
  ⟨sample_line_state, ∅, SelectionKey.file ⟨0, 0⟩, 0, Option.none, Option.none⟩

/-- Whether a selection key is a Line key. -/
def SelectionKey.is_line : SelectionKey → Bool
  | .line _ => Bool.true
  | _ => Bool.false

/-- The claim's reading of `advance_to_next_of_kind`, following the spec's
words: the first key of the same variant strictly after the current
selection in the FULL canonical enumeration from `all_selection_keys`,
falling back to the current selection. -/
def Recorder.advance_to_next_of_kind_full (r : Recorder) : SelectionKey :=
  let keys := r.all_selection_keys
  match keys.findIdx? (· == r.selection_key) with
  | Option.none => r.selection_key
  | some index =>
    (((keys.drop (index + 1)).find? fun key => r.selection_key.same_kind key).getD
      r.selection_key)

/-- Sample state with two files, each holding an empty Changed section. -/
def sample_two_state : RecordState :=
  ⟨Bool.false, [⟨Option.none⟩, ⟨Option.none⟩],
    [⟨Option.none, "a", FileMode.unix 420, [Section.changed []]⟩,
     ⟨Option.none, "b", FileMode.unix 420, [Section.changed []]⟩]⟩

/-- Sample recorder where only the first file is expanded and its section
is selected; the second file's Section key is canonical but invisible. -/
def sample_two_recorder : Recorder :=
  ⟨sample_two_state, {SelectionKey.file ⟨0, 0⟩}, SelectionKey.sec ⟨0, 0, 0⟩, 0,
    Option.none, Option.none⟩

theorem foldl_combine_mixed (ts : List Tristate) :
    ts.foldl Tristate.combine Tristate.mixed = Tristate.mixed := by
  induction ts with
  | nil => rfl
  | cons t ts ih =>
      simp only [List.foldl_cons]
      have h : Tristate.mixed.combine t = Tristate.mixed := by
        cases t <;> rfl
      rw [h, ih]

theorem foldl_combine_eq (ts : List Tristate) (a : Tristate) :
    ts.foldl Tristate.combine a = if ts.all (· == a) then a else Tristate.mixed := by
  induction ts generalizing a with
  | nil => simp
  | cons t ts ih =>
      simp only [List.foldl_cons, List.all_cons]
      by_cases h : t = a
      · subst h
        have : t.combine t = t := by cases t <;> rfl
        rw [this, ih]
        simp
      · have hc : a.combine t = Tristate.mixed := by
          simp only [Tristate.combine]
          rw [if_neg (fun hh => h hh.symm)]
        rw [hc, foldl_combine_mixed]
        have hba : (t == a) = Bool.false := by simp [h]
        simp [hba]

theorem combineAll_cons (t : Tristate) (ts : List Tristate) :
    combineAll (t :: ts) = ts.foldl Tristate.combine t := by
  show (Option.getD (ts.foldl _ (some t)) Tristate.false) = _
  induction ts generalizing t with
  | nil => rfl
  | cons u us ih =>
      simp only [List.foldl_cons]
      exact ih (t.combine u)

theorem combineAll_eq_false_iff (ts : List Tristate) :
    combineAll ts = Tristate.false ↔ ∀ t ∈ ts, t = Tristate.false := by
  cases ts with
  | nil => simp [combineAll]
  | cons t ts =>
      rw [combineAll_cons, foldl_combine_eq]
      constructor
      · intro h
        by_cases hall : ts.all (· == t)
        · rw [if_pos hall] at h
          subst h
          intro u hu
          rcases List.mem_cons.mp hu with rfl | hu
          · rfl
          · have := List.all_eq_true.mp hall u hu
            exact beq_iff_eq.mp this
        · rw [if_neg hall] at h
          exact absurd h (by simp)
      · intro h
        have ht : t = Tristate.false := h t (by simp)
        have hall : ts.all (· == t) = Bool.true := by
          rw [List.all_eq_true]
          intro u hu
          rw [h u (by simp [hu]), ht]
          rfl
        rw [if_pos hall, ht]

theorem combineAll_eq_true_iff (ts : List Tristate) :
    combineAll ts = Tristate.true ↔ ts ≠ [] ∧ ∀ t ∈ ts, t = Tristate.true := by
  cases ts with
  | nil => simp [combineAll]
  | cons t ts =>
      rw [combineAll_cons, foldl_combine_eq]
      constructor
      · intro h
        by_cases hall : ts.all (· == t)
        · rw [if_pos hall] at h
          subst h
          refine ⟨by simp, ?_⟩
          intro u hu
          rcases List.mem_cons.mp hu with rfl | hu
          · rfl
          · have := List.all_eq_true.mp hall u hu
            exact beq_iff_eq.mp this
        · rw [if_neg hall] at h
          exact absurd h (by simp)
      · rintro ⟨-, h⟩
        have ht : t = Tristate.true := h t (by simp)
        have hall : ts.all (· == t) = Bool.true := by
          rw [List.all_eq_true]
          intro u hu
          rw [h u (by simp [hu]), ht]
          rfl
        rw [if_pos hall, ht]

theorem map_set_checked_id (lines : List SectionChangedLine) (v : Bool)
    (h : ∀ l ∈ lines, l.is_checked = v) :
    (lines.map fun l => { l with is_checked := v }) = lines := by
  induction lines with
  | nil => rfl
  | cons l ls ih =>
      simp only [List.map_cons]
      have hl : l.is_checked = v := h l (by simp)
      have : ({ l with is_checked := v } : SectionChangedLine) = l := by
        cases l
        simp_all
      rw [this, ih]
      intro x hx
      exact h x (by simp [hx])

theorem Section.tristate_false_iff (sec : Section) :
    sec.tristate = Tristate.false ↔ sec.uniform_checked Bool.false = Bool.true := by
  cases sec with
  | unchanged lines => simp [Section.tristate, Section.uniform_checked]
  | changed lines =>
      simp only [Section.tristate, Section.uniform_checked,
        combineAll_eq_false_iff, List.mem_map, List.all_eq_true]
      constructor
      · intro h l hl
        have := h (tristateOfBool l.is_checked) ⟨l, hl, rfl⟩
        cases hc : l.is_checked
        · rfl
        · rw [hc] at this
          exact absurd this (by simp [tristateOfBool])
      · rintro h t ⟨l, hl, rfl⟩
        have := h l hl
        have hc : l.is_checked = Bool.false := by
          cases hc : l.is_checked
          · rfl
          · rw [hc] at this
            exact absurd this (by simp)
        rw [hc]
        rfl
  | fileMode c m =>
      cases c <;> simp [Section.tristate, Section.uniform_checked, tristateOfBool]
  | binary c o n =>
      cases c <;> simp [Section.tristate, Section.uniform_checked, tristateOfBool]

theorem Section.changed_tristate_true_iff (lines : List SectionChangedLine) :
    (Section.changed lines).tristate = Tristate.true ↔
      lines ≠ [] ∧ ∀ l ∈ lines, l.is_checked = Bool.true := by
  simp only [Section.tristate, combineAll_eq_true_iff, List.mem_map]
  constructor
  · rintro ⟨hne, h⟩
    refine ⟨by simpa using hne, ?_⟩
    intro l hl
    have := h (tristateOfBool l.is_checked) ⟨l, hl, rfl⟩
    cases hc : l.is_checked
    · rw [hc] at this
      exact absurd this (by simp [tristateOfBool])
    · rfl
  · rintro ⟨hne, h⟩
    refine ⟨by simpa using hne, ?_⟩
    rintro t ⟨l, hl, rfl⟩
    rw [h l hl]
    rfl

theorem Section.set_checked_set_checked (sec : Section) (a b : Bool) :
    (sec.set_checked a).set_checked b = sec.set_checked b := by
  cases sec <;> simp [Section.set_checked]

theorem Section.set_checked_of_uniform (sec : Section) (v : Bool)
    (h : sec.uniform_checked v = Bool.true) : sec.set_checked v = sec := by
  cases sec with
  | unchanged lines => rfl
  | changed lines =>
      simp only [Section.uniform_checked, List.all_eq_true] at h
      simp only [Section.set_checked]
      rw [map_set_checked_id]
      intro l hl
      exact beq_iff_eq.mp (h l hl)
  | fileMode c m =>
      simp only [Section.uniform_checked] at h
      rw [Section.set_checked, beq_iff_eq.mp h]
  | binary c o n =>
      simp only [Section.uniform_checked] at h
      rw [Section.set_checked, beq_iff_eq.mp h]

theorem Section.uniform_checked_set_checked (sec : Section) (v : Bool) :
    (sec.set_checked v).uniform_checked v = Bool.true := by
  cases sec <;> simp [Section.set_checked, Section.uniform_checked]

theorem Section.is_editable_set_checked (sec : Section) (v : Bool) :
    (sec.set_checked v).is_editable = sec.is_editable := by
  cases sec <;> rfl

theorem File.file_tristate_false_iff (f : File) :
    f.tristate = Tristate.false ↔
      ∀ sec ∈ f.sections, sec.is_editable = Bool.true → sec.tristate = Tristate.false := by
  simp only [File.tristate, combineAll_eq_false_iff, List.mem_map, List.mem_filter]
  constructor
  · intro h sec hs he
    exact h sec.tristate ⟨sec, ⟨hs, he⟩, rfl⟩
  · rintro h t ⟨sec, ⟨hs, he⟩, rfl⟩
    exact h sec hs he

theorem File.tristate_true_iff (f : File) :
    f.tristate = Tristate.true ↔
      (∃ sec ∈ f.sections, sec.is_editable = Bool.true) ∧
      ∀ sec ∈ f.sections, sec.is_editable = Bool.true → sec.tristate = Tristate.true := by
  simp only [File.tristate, combineAll_eq_true_iff, List.mem_map, List.mem_filter]
  constructor
  · rintro ⟨hne, h⟩
    constructor
    · rcases List.exists_mem_of_ne_nil _ hne with ⟨t, ht⟩
      rcases List.mem_map.mp ht with ⟨sec, hsec, rfl⟩
      exact ⟨sec, (List.mem_filter.mp hsec).1, (List.mem_filter.mp hsec).2⟩
    · intro sec hs he
      exact h sec.tristate ⟨sec, ⟨hs, he⟩, rfl⟩
  · rintro ⟨⟨sec0, hs0, he0⟩, h⟩
    constructor
    · intro hnil
      have : sec0.tristate ∈ ((f.sections.filter Section.is_editable).map Section.tristate) :=
        List.mem_map.mpr ⟨sec0, List.mem_filter.mpr ⟨hs0, he0⟩, rfl⟩
      rw [hnil] at this
      exact absurd this (by simp)
    · rintro t ⟨sec, ⟨hs, he⟩, rfl⟩
      exact h sec hs he

theorem list_set_self {α : Type} (l : List α) (i : Nat) (a : α)
    (h : l[i]? = some a) : l.set i a = l := by
  induction l generalizing i with
  | nil => simp at h
  | cons x xs ih =>
      cases i with
      | zero =>
          simp only [List.getElem?_cons_zero, Option.some.injEq] at h
          rw [List.set_cons_zero, h]
      | succ j =>
          simp only [List.getElem?_cons_succ] at h
          rw [List.set_cons_succ, ih j h]

theorem File.file_set_checked_twice (f : File) (a b : Bool) :
    (f.set_checked a).set_checked b = f.set_checked b := by
  simp only [File.set_checked, List.map_map]
  congr 1
  exact List.map_congr_left fun sec _ => Section.set_checked_set_checked sec a b

theorem File.file_set_checked_of_uniform (f : File) (v : Bool)
    (h : ∀ sec ∈ f.sections, sec.uniform_checked v = Bool.true) :
    f.set_checked v = f := by
  have hmap : f.sections.map (Section.set_checked · v) = f.sections := by
    have h1 : f.sections.map (Section.set_checked · v) = f.sections.map id :=
      List.map_congr_left fun sec hm => Section.set_checked_of_uniform sec v (h sec hm)
    rw [h1, List.map_id]
  show ({ f with sections := f.sections.map (Section.set_checked · v) } : File) = f
  rw [hmap]

theorem toggle_item_file_eq (s : RecordState) (fk : FileKey) (file : File)
    (hro : s.is_read_only = Bool.false)
    (hf : s.files[fk.file_idx]? = some file) :
    s.toggle_item (.file fk) =
      .ok (s.set_file fk.file_idx (file.set_checked (match file.tristate with
          | Tristate.false => Bool.true
          | _ => Bool.false))) := by
  unfold RecordState.toggle_item RecordState.file_tristate RecordState.file
    RecordState.visit_file RecordState.set_file
  rw [hro]
  dsimp only
  rw [hf]
  simp

theorem toggle_item_sec_unchanged_eq (s : RecordState) (sk : SectionKey)
    (file : File) (lines : List String)
    (hro : s.is_read_only = Bool.false)
    (hf : s.files[sk.file_idx]? = some file)
    (hs : file.sections[sk.section_idx]? = some (Section.unchanged lines)) :
    s.toggle_item (.sec sk) = .ok s := by
  obtain ⟨hlen, -⟩ := List.getElem?_eq_some_iff.mp hf
  obtain ⟨hslen, -⟩ := List.getElem?_eq_some_iff.mp hs
  unfold RecordState.toggle_item RecordState.section_tristate RecordState.getSection
    RecordState.file RecordState.visit_file_for_section RecordState.visit_section
  rw [hro]
  dsimp only
  rw [hf]
  dsimp only
  rw [hs]
  dsimp only
  rw [List.getElem?_set_self hlen]
  dsimp only
  rw [hs]
  dsimp only [Section.set_checked]
  rw [List.set_set, list_set_self _ _ _ hs]
  rw [list_set_self _ _ _ hf]
  simp
  show ({ is_read_only := Bool.false, commits := s.commits, files := s.files } : RecordState) = s
  rw [← hro]

theorem toggle_item_sec_changed_eq (s : RecordState) (sk : SectionKey)
    (file : File) (lines : List SectionChangedLine)
    (hro : s.is_read_only = Bool.false)
    (hf : s.files[sk.file_idx]? = some file)
    (hs : file.sections[sk.section_idx]? = some (Section.changed lines)) :
    s.toggle_item (.sec sk) =
      .ok (s.set_file sk.file_idx
        (File.apply_changed_coherence
          { file with sections := (file.sections.set sk.section_idx
              ((Section.changed lines).set_checked
                (match (Section.changed lines).tristate with
                  | Tristate.false => Bool.true
                  | _ => Bool.false))) }
          (match (Section.changed lines).tristate with
            | Tristate.false => Bool.true
            | _ => Bool.false))) := by
  obtain ⟨hlen, -⟩ := List.getElem?_eq_some_iff.mp hf
  unfold RecordState.toggle_item RecordState.section_tristate RecordState.getSection
    RecordState.file RecordState.visit_file_for_section RecordState.visit_section
    RecordState.apply_side_effects RecordState.set_file
  rw [hro]
  dsimp only
  rw [hf]
  dsimp only
  rw [hs]
  dsimp only
  rw [List.getElem?_set_self hlen]
  dsimp only
  rw [hs]
  dsimp only [Section.set_checked]
  unfold RecordState.visit_file_for_section
  dsimp only
  rw [List.set_set, List.getElem?_set_self hlen]
  dsimp only
  rw [List.set_set]
  simp [Section.set_checked]

theorem toggle_item_sec_binary_eq (s : RecordState) (sk : SectionKey)
    (file : File) (c : Bool) (od nd : Option String)
    (hro : s.is_read_only = Bool.false)
    (hf : s.files[sk.file_idx]? = some file)
    (hs : file.sections[sk.section_idx]? = some (Section.binary c od nd)) :
    s.toggle_item (.sec sk) =
      .ok (s.set_file sk.file_idx
        ({ file with sections := (file.sections.set sk.section_idx
            (Section.binary (!c) od nd)) })) := by
  obtain ⟨hlen, -⟩ := List.getElem?_eq_some_iff.mp hf
  unfold RecordState.toggle_item RecordState.section_tristate RecordState.getSection
    RecordState.file RecordState.visit_file_for_section RecordState.visit_section
    RecordState.set_file
  rw [hro]
  dsimp only
  rw [hf]
  dsimp only
  rw [hs]
  dsimp only
  rw [List.getElem?_set_self hlen]
  dsimp only
  rw [hs]
  cases c <;>
    · dsimp only [Section.set_checked, Section.tristate, tristateOfBool]
      rw [List.set_set]
      simp

theorem toggle_item_sec_filemode_eq (s : RecordState) (sk : SectionKey)
    (file : File) (c : Bool) (m : FileMode)
    (hro : s.is_read_only = Bool.false)
    (hf : s.files[sk.file_idx]? = some file)
    (hs : file.sections[sk.section_idx]? = some (Section.fileMode c m)) :
    s.toggle_item (.sec sk) =
      .ok (s.set_file sk.file_idx
        (let file1 : File :=
          { file with sections := (file.sections.set sk.section_idx (Section.fileMode (!c) m)) }
         let file2 : File :=
          if (!c) && (m == FileMode.absent) then file1.check_all_changed_sections else file1
         if c && (file.file_mode == FileMode.absent) then file2.uncheck_all_sections
         else file2)) := by
  obtain ⟨hlen, -⟩ := List.getElem?_eq_some_iff.mp hf
  unfold RecordState.toggle_item RecordState.section_tristate RecordState.getSection
    RecordState.file RecordState.visit_file_for_section RecordState.visit_section
    RecordState.apply_side_effects RecordState.set_file
  rw [hro]
  dsimp only
  rw [hf]
  dsimp only
  rw [hs]
  dsimp only
  rw [List.getElem?_set_self hlen]
  dsimp only
  rw [hs]
  dsimp only [Section.set_checked, Section.tristate, tristateOfBool]
  rw [List.set_set]
  cases c <;> cases m <;> cases hfm : file.file_mode <;>
    simp [RecordState.visit_file_for_section, List.getElem?_set_self hlen, List.set_set]

theorem toggle_item_line_changed_eq (s : RecordState) (lk : LineKey)
    (file : File) (lines : List SectionChangedLine) (line : SectionChangedLine)
    (hro : s.is_read_only = Bool.false)
    (hf : s.files[lk.file_idx]? = some file)
    (hs : file.sections[lk.section_idx]? = some (Section.changed lines))
    (hl : lines[lk.line_idx]? = some line) :
    s.toggle_item (.line lk) =
      .ok (s.set_file lk.file_idx
        (File.apply_changed_coherence
          { file with sections := (file.sections.set lk.section_idx
              (Section.changed (lines.set lk.line_idx { line with is_checked := !line.is_checked }))) }
          (!line.is_checked))) := by
  obtain ⟨hlen, -⟩ := List.getElem?_eq_some_iff.mp hf
  unfold RecordState.toggle_item RecordState.visit_line
    RecordState.apply_side_effects RecordState.visit_file_for_line RecordState.set_file
  rw [hro]
  dsimp only
  rw [hf]
  dsimp only
  rw [hs]
  dsimp only
  rw [hl]
  dsimp only
  rw [List.getElem?_set_self hlen]
  dsimp only
  rw [List.set_set]
  simp

theorem toggle_item_line_nonchanged_eq (s : RecordState) (lk : LineKey)
    (file : File) (sec0 : Section)
    (hro : s.is_read_only = Bool.false)
    (hf : s.files[lk.file_idx]? = some file)
    (hs : file.sections[lk.section_idx]? = some sec0)
    (hnc : ∀ lines, sec0 ≠ Section.changed lines) :
    s.toggle_item (.line lk) = .ok s := by
  unfold RecordState.toggle_item RecordState.visit_line
  rw [hro]
  dsimp only
  rw [hf]
  dsimp only
  rw [hs]
  cases sec0 with
  | unchanged lines => simp
  | changed lines => exact absurd rfl (hnc lines)
  | fileMode c m => simp
  | binary c od nd => simp

theorem toggle_item_none_eq (s : RecordState)
    (hro : s.is_read_only = Bool.false) :
    s.toggle_item SelectionKey.none = .ok s := by
  unfold RecordState.toggle_item
  rw [hro]
  simp

theorem toggle_item_file_oob (s : RecordState) (fk : FileKey)
    (hro : s.is_read_only = Bool.false)
    (hf : s.files[fk.file_idx]? = Option.none) :
    ∃ msg, s.toggle_item (.file fk) = .err (.bug msg) := by
  have h : s.toggle_item (.file fk) =
      .err (.bug s!"Out-of-bounds file key: {toString (repr fk)}") := by
    unfold RecordState.toggle_item RecordState.file_tristate RecordState.file
    rw [hro]
    dsimp only
    rw [hf]
    simp
  exact ⟨_, h⟩

theorem toggle_item_sec_oob_file (s : RecordState) (sk : SectionKey)
    (hro : s.is_read_only = Bool.false)
    (hf : s.files[sk.file_idx]? = Option.none) :
    ∃ msg, s.toggle_item (.sec sk) = .err (.bug msg) := by
  have h : s.toggle_item (.sec sk) =
      .err (.bug s!"Out-of-bounds file key: {toString (repr (FileKey.mk sk.commit_idx sk.file_idx))}") := by
    unfold RecordState.toggle_item RecordState.section_tristate RecordState.getSection
      RecordState.file
    rw [hro]
    dsimp only
    rw [hf]
    simp
  exact ⟨_, h⟩

theorem toggle_item_sec_oob_section (s : RecordState) (sk : SectionKey) (file : File)
    (hro : s.is_read_only = Bool.false)
    (hf : s.files[sk.file_idx]? = some file)
    (hs : file.sections[sk.section_idx]? = Option.none) :
    ∃ msg, s.toggle_item (.sec sk) = .err (.bug msg) := by
  have h : s.toggle_item (.sec sk) =
      .err (.bug s!"Out-of-bounds section key: {toString (repr sk)}") := by
    unfold RecordState.toggle_item RecordState.section_tristate RecordState.getSection
      RecordState.file
    rw [hro]
    dsimp only
    rw [hf]
    dsimp only
    rw [hs]
    simp
  exact ⟨_, h⟩

theorem toggle_item_line_oob_file (s : RecordState) (lk : LineKey)
    (hro : s.is_read_only = Bool.false)
    (hf : s.files[lk.file_idx]? = Option.none) :
    s.toggle_item (.line lk) = .panicked "index out of bounds" := by
  unfold RecordState.toggle_item RecordState.visit_line
  rw [hro]
  dsimp only
  rw [hf]
  simp

theorem toggle_item_line_oob_section (s : RecordState) (lk : LineKey) (file : File)
    (hro : s.is_read_only = Bool.false)
    (hf : s.files[lk.file_idx]? = some file)
    (hs : file.sections[lk.section_idx]? = Option.none) :
    s.toggle_item (.line lk) = .panicked "index out of bounds" := by
  unfold RecordState.toggle_item RecordState.visit_line
  rw [hro]
  dsimp only
  rw [hf]
  dsimp only
  rw [hs]
  simp

theorem toggle_item_line_oob_line (s : RecordState) (lk : LineKey) (file : File)
    (lines : List SectionChangedLine)
    (hro : s.is_read_only = Bool.false)
    (hf : s.files[lk.file_idx]? = some file)
    (hs : file.sections[lk.section_idx]? = some (Section.changed lines))
    (hl : lines[lk.line_idx]? = Option.none) :
    s.toggle_item (.line lk) = .panicked "index out of bounds" := by
  unfold RecordState.toggle_item RecordState.visit_line
  rw [hro]
  dsimp only
  rw [hf]
  dsimp only
  rw [hs]
  dsimp only
  rw [hl]
  simp

theorem tristate_round_eq (t : Tristate) :
    (match t with | Tristate.false => Bool.true | _ => Bool.false) =
      decide (t = Tristate.false) := by
  cases t <;> rfl

theorem Section.tristate_true_uniform (sec : Section)
    (h : sec.tristate = Tristate.true) : sec.uniform_checked Bool.true = Bool.true := by
  cases sec with
  | unchanged lines => rfl
  | changed lines =>
      rcases (Section.changed_tristate_true_iff lines).mp h with ⟨-, hall⟩
      simp only [Section.uniform_checked, List.all_eq_true]
      intro l hl
      rw [hall l hl]
      rfl
  | fileMode c m =>
      cases c
      · exact absurd h (by simp [Section.tristate, tristateOfBool])
      · rfl
  | binary c od nd =>
      cases c
      · exact absurd h (by simp [Section.tristate, tristateOfBool])
      · rfl

theorem Section.tristate_set_checked_false (sec : Section)
    (h : sec.is_editable = Bool.true) :
    (sec.set_checked Bool.false).tristate = Tristate.false := by
  cases sec with
  | unchanged lines => exact absurd h (by simp [Section.is_editable])
  | changed lines =>
      rw [Section.tristate_false_iff]
      exact Section.uniform_checked_set_checked _ _
  | fileMode c m => rfl
  | binary c od nd => rfl

theorem Section.fully_unchecked_set_checked_false (sec : Section) :
    (sec.set_checked Bool.false).fully_unchecked = Bool.true := by
  cases sec <;> simp [Section.set_checked, Section.fully_unchecked]

theorem File.apply_changed_coherence_of_no_filemode (f : File) (v : Bool)
    (h : f.no_filemode_sections = Bool.true) :
    f.apply_changed_coherence v = f := by
  simp only [File.no_filemode_sections, List.all_eq_true] at h
  unfold File.apply_changed_coherence
  cases f with
  | mk op p fm secs =>
      simp only [File.mk.injEq, Bool.true_and, eq_self_iff_true, and_true, true_and]
      dsimp only at h ⊢
      induction secs with
      | nil => rfl
      | cons sec rest ih =>
          simp only [List.map_cons]
          have hhead := h sec (by simp)
          have htail : ∀ x ∈ rest,
              (match x with
                | Section.fileMode _ _ => Bool.false
                | _ => Bool.true) = Bool.true := fun x hx => h x (by simp [hx])
          cases sec with
          | fileMode c m => exact absurd hhead (by simp)
          | unchanged lines => rw [ih htail]
          | changed lines => rw [ih htail]
          | binary c od nd => rw [ih htail]

theorem set_file_getElem (s : RecordState) (i : Nat) (file : File)
    (h : i < s.files.length) :
    (s.set_file i file).files[i]? = some file := by
  unfold RecordState.set_file
  dsimp only
  exact List.getElem?_set_self h

theorem toggle_item_read_only (s : RecordState) (k : SelectionKey)
    (hro : s.is_read_only = Bool.true) : s.toggle_item k = .ok s := by
  unfold RecordState.toggle_item
  rw [hro]
  simp

theorem toggle_all_read_only (s : RecordState)
    (hro : s.is_read_only = Bool.true) : s.toggle_all = s := by
  unfold RecordState.toggle_all
  rw [hro]
  simp

theorem toggle_all_uniform_read_only (s : RecordState)
    (hro : s.is_read_only = Bool.true) : s.toggle_all_uniform = s := by
  unfold RecordState.toggle_all_uniform
  rw [hro]
  simp

/-- C5: when `is_read_only` is set, `toggle_item` (for every selection key),
`toggle_all` and `toggle_all_uniform` leave the record state unchanged
(`toggle_item` returns it untouched, the other two return it as-is). -/
theorem claim_C5 (s : RecordState) (k : SelectionKey)
    (hro : s.is_read_only = Bool.true) :
    s.toggle_item k = .ok s ∧ s.toggle_all = s ∧ s.toggle_all_uniform = s :=
  ⟨toggle_item_read_only s k hro, toggle_all_read_only s hro,
    toggle_all_uniform_read_only s hro⟩

/-- Witness for C5 at the concrete read-only sample state. -/
theorem claim_C5_witness :
    sample_read_only_state.toggle_item (.line ⟨0, 0, 0, 0⟩) = .ok sample_read_only_state ∧
    sample_read_only_state.toggle_all = sample_read_only_state ∧
    sample_read_only_state.toggle_all_uniform = sample_read_only_state :=
  claim_C5 sample_read_only_state (.line ⟨0, 0, 0, 0⟩) rfl

/-- C3: a File toggle computes the file tristate and writes
`checked = (tristate was False)` into every editable section; a Section
toggle applies the same rounding rule to the section's own tristate,
setting every line of a Changed section or the flag of a FileMode/Binary
section. -/
theorem claim_C3 :
    (∀ (s : RecordState) (fk : FileKey) (file : File),
      s.is_read_only = Bool.false →
      s.files[fk.file_idx]? = some file →
      ∃ file', s.toggle_item (.file fk) = .ok (s.set_file fk.file_idx file') ∧
        ∀ sec ∈ file'.sections, sec.is_editable = Bool.true →
          sec.uniform_checked (decide (file.tristate = Tristate.false)) = Bool.true) ∧
    (∀ (s : RecordState) (sk : SectionKey) (file : File) (sec0 : Section),
      s.is_read_only = Bool.false →
      s.files[sk.file_idx]? = some file →
      file.sections[sk.section_idx]? = some sec0 →
      ∃ s', s.toggle_item (.sec sk) = .ok s' ∧
        ∃ file', s'.files[sk.file_idx]? = some file' ∧
          ∃ sec', file'.sections[sk.section_idx]? = some sec' ∧
            sec'.uniform_checked (decide (sec0.tristate = Tristate.false)) = Bool.true) := by
  constructor
  · intro s fk file hro hf
    refine ⟨file.set_checked (decide (file.tristate = Tristate.false)), ?_, ?_⟩
    · rw [toggle_item_file_eq s fk file hro hf, tristate_round_eq]
    · intro sec hmem hed
      rcases List.mem_map.mp hmem with ⟨sec0, -, rfl⟩
      exact Section.uniform_checked_set_checked sec0 _
  · intro s sk file sec0 hro hf hs
    obtain ⟨hlen, -⟩ := List.getElem?_eq_some_iff.mp hf
    obtain ⟨hslen, -⟩ := List.getElem?_eq_some_iff.mp hs
    cases sec0 with
    | unchanged lines =>
        refine ⟨s, toggle_item_sec_unchanged_eq s sk file lines hro hf hs, file, hf,
          Section.unchanged lines, hs, ?_⟩
        rfl
    | changed lines =>
        rw [toggle_item_sec_changed_eq s sk file lines hro hf hs]
        refine ⟨_, rfl, _, set_file_getElem s sk.file_idx _ hlen,
          (Section.changed lines).set_checked
            (match (Section.changed lines).tristate with
              | Tristate.false => Bool.true
              | _ => Bool.false), ?_, ?_⟩
        · unfold File.apply_changed_coherence
          dsimp only
          rw [List.getElem?_map, List.getElem?_set_self hslen]
          dsimp [Section.set_checked]
        · rw [tristate_round_eq]
          exact Section.uniform_checked_set_checked _ _
    | fileMode c m =>
        rw [toggle_item_sec_filemode_eq s sk file c m hro hf hs]
        refine ⟨_, rfl, _, set_file_getElem s sk.file_idx _ hlen,
          Section.fileMode (!c) m, ?_, ?_⟩
        · cases hc : c <;> cases hm : m == FileMode.absent <;>
            cases hfm : file.file_mode == FileMode.absent <;>
              simp [File.check_all_changed_sections, File.uncheck_all_sections,
                Section.set_checked, List.getElem?_map, hm, hfm,
                List.length_map, hslen]
        · cases c <;>
            simp [Section.uniform_checked, Section.tristate, tristateOfBool]
    | binary c od nd =>
        rw [toggle_item_sec_binary_eq s sk file c od nd hro hf hs]
        refine ⟨_, rfl, _, set_file_getElem s sk.file_idx _ hlen,
          Section.binary (!c) od nd, ?_, ?_⟩
        · dsimp only
          rw [List.getElem?_set_self hslen]
        · cases c <;>
            simp [Section.uniform_checked, Section.tristate, tristateOfBool]

/-- Witness for C3 at the concrete sample state. -/
theorem claim_C3_witness :
    ∃ file', sample_line_state.toggle_item (.file ⟨0, 0⟩) =
        .ok (sample_line_state.set_file 0 file') ∧
      ∀ sec ∈ file'.sections, sec.is_editable = Bool.true →
        sec.uniform_checked (decide (sample_line_file.tristate = Tristate.false)) = Bool.true :=
  claim_C3.1 sample_line_state ⟨0, 0⟩ sample_line_file rfl rfl

theorem apply_changed_coherence_mem (f : File) (v : Bool) (sec' : Section)
    (hmem : sec' ∈ (f.apply_changed_coherence v).sections) :
    (v = Bool.false → sec'.fm_absent_unchecked = Bool.true) ∧
    (v = Bool.true → f.file_mode = FileMode.absent → sec'.fm_checked = Bool.true) := by
  unfold File.apply_changed_coherence at hmem
  dsimp only at hmem
  rcases List.mem_map.mp hmem with ⟨sec, -, rfl⟩
  cases sec with
  | unchanged lines => exact ⟨fun _ => rfl, fun _ _ => rfl⟩
  | changed lines => exact ⟨fun _ => rfl, fun _ _ => rfl⟩
  | binary c od nd => exact ⟨fun _ => rfl, fun _ _ => rfl⟩
  | fileMode c m =>
      constructor
      · rintro rfl
        cases hm : m == FileMode.absent <;>
          simp [Section.fm_absent_unchecked, hm]
      · rintro rfl hfm
        simp [Section.fm_checked, hfm]

/-- C1: toggling a FileMode pseudo-section: checking a deletion (section was
unchecked, i.e. its tristate was False, and its mode is Absent) checks
every line of every Changed section in the file; unchecking a creation
(section was checked and the file's old `file_mode` is Absent) unchecks
every section in the file. -/
theorem claim_C1 (s : RecordState) (sk : SectionKey) (file : File) (c : Bool)
    (m : FileMode)
    (hro : s.is_read_only = Bool.false)
    (hf : s.files[sk.file_idx]? = some file)
    (hs : file.sections[sk.section_idx]? = some (Section.fileMode c m)) :
    (c = Bool.false → m = FileMode.absent →
      ∃ file', s.toggle_item (.sec sk) = .ok (s.set_file sk.file_idx file') ∧
        ∀ sec ∈ file'.sections, sec.all_lines_checked = Bool.true) ∧
    (c = Bool.true → file.file_mode = FileMode.absent →
      ∃ file', s.toggle_item (.sec sk) = .ok (s.set_file sk.file_idx file') ∧
        ∀ sec ∈ file'.sections, sec.fully_unchecked = Bool.true) := by
  rw [toggle_item_sec_filemode_eq s sk file c m hro hf hs]
  constructor
  · rintro rfl rfl
    refine ⟨File.check_all_changed_sections
      { file with sections := (file.sections.set sk.section_idx
          (Section.fileMode Bool.true FileMode.absent)) }, by simp, ?_⟩
    intro sec hmem
    unfold File.check_all_changed_sections at hmem
    dsimp only at hmem
    rcases List.mem_map.mp hmem with ⟨sec0, -, rfl⟩
    cases sec0 with
    | unchanged lines => rfl
    | changed lines => simp [Section.set_checked, Section.all_lines_checked]
    | fileMode c' m' => rfl
    | binary c' od nd => rfl
  · rintro rfl hfm
    refine ⟨File.uncheck_all_sections
      { file with sections := (file.sections.set sk.section_idx
          (Section.fileMode Bool.false m)) }, by simp [hfm], ?_⟩
    intro sec hmem
    unfold File.uncheck_all_sections at hmem
    dsimp only at hmem
    rcases List.mem_map.mp hmem with ⟨sec0, -, rfl⟩
    exact Section.fully_unchecked_set_checked_false sec0

/-- Witness for C1 at the deletion sample state (checking a deletion). -/
theorem claim_C1_witness :
    ∃ file', sample_deletion_state.toggle_item (.sec ⟨0, 0, 0⟩) =
        .ok (sample_deletion_state.set_file 0 file') ∧
      ∀ sec ∈ file'.sections, sec.all_lines_checked = Bool.true :=
  (claim_C1 sample_deletion_state ⟨0, 0, 0⟩
    ⟨Option.none, "a", FileMode.unix 420,
      [Section.fileMode Bool.false FileMode.absent,
       Section.changed [⟨Bool.false, ChangeType.removed, "x"⟩]]⟩
    Bool.false FileMode.absent rfl rfl rfl).1 rfl rfl

/-- C2: toggling a Changed section (or a single changed line) to the new
value v adjusts the FileMode sections of the same file: v = false clears
every Absent-mode FileMode section; v = true with the file's old mode
Absent checks every FileMode section.  The rule is the same for the
Section-key and the Line-key case. -/
theorem claim_C2 :
    (∀ (s : RecordState) (sk : SectionKey) (file : File)
        (lines : List SectionChangedLine),
      s.is_read_only = Bool.false →
      s.files[sk.file_idx]? = some file →
      file.sections[sk.section_idx]? = some (Section.changed lines) →
      ∃ file', s.toggle_item (.sec sk) = .ok (s.set_file sk.file_idx file') ∧
        (decide ((Section.changed lines).tristate = Tristate.false) = Bool.false →
          ∀ sec ∈ file'.sections, sec.fm_absent_unchecked = Bool.true) ∧
        (decide ((Section.changed lines).tristate = Tristate.false) = Bool.true →
          file.file_mode = FileMode.absent →
          ∀ sec ∈ file'.sections, sec.fm_checked = Bool.true)) ∧
    (∀ (s : RecordState) (lk : LineKey) (file : File)
        (lines : List SectionChangedLine) (line : SectionChangedLine),
      s.is_read_only = Bool.false →
      s.files[lk.file_idx]? = some file →
      file.sections[lk.section_idx]? = some (Section.changed lines) →
      lines[lk.line_idx]? = some line →
      ∃ file', s.toggle_item (.line lk) = .ok (s.set_file lk.file_idx file') ∧
        ((!line.is_checked) = Bool.false →
          ∀ sec ∈ file'.sections, sec.fm_absent_unchecked = Bool.true) ∧
        ((!line.is_checked) = Bool.true →
          file.file_mode = FileMode.absent →
          ∀ sec ∈ file'.sections, sec.fm_checked = Bool.true)) := by
  constructor
  · intro s sk file lines hro hf hs
    rw [toggle_item_sec_changed_eq s sk file lines hro hf hs]
    rw [tristate_round_eq]
    refine ⟨_, rfl, ?_, ?_⟩
    · intro hv sec hmem
      exact (apply_changed_coherence_mem _ _ sec hmem).1 hv
    · intro hv hfm sec hmem
      exact (apply_changed_coherence_mem _ _ sec hmem).2 hv hfm
  · intro s lk file lines line hro hf hs hl
    rw [toggle_item_line_changed_eq s lk file lines line hro hf hs hl]
    refine ⟨_, rfl, ?_, ?_⟩
    · intro hv sec hmem
      exact (apply_changed_coherence_mem _ _ sec hmem).1 hv
    · intro hv hfm sec hmem
      exact (apply_changed_coherence_mem _ _ sec hmem).2 hv hfm

/-- Witness for C2: toggling the single line of the sample state. -/
theorem claim_C2_witness :
    ∃ file', sample_line_state.toggle_item (.line ⟨0, 0, 0, 0⟩) =
        .ok (sample_line_state.set_file 0 file') ∧
      ((!Bool.false) = Bool.false →
        ∀ sec ∈ file'.sections, sec.fm_absent_unchecked = Bool.true) ∧
      ((!Bool.false) = Bool.true →
        sample_line_file.file_mode = FileMode.absent →
        ∀ sec ∈ file'.sections, sec.fm_checked = Bool.true) :=
  claim_C2.2 sample_line_state ⟨0, 0, 0, 0⟩ sample_line_file
    [⟨Bool.false, ChangeType.added, "x"⟩] ⟨Bool.false, ChangeType.added, "x"⟩
    rfl rfl rfl rfl

/-- C7 (amended): out-of-range File and Section keys make `toggle_item`
return a `RecordError.Bug` before any mutation; out-of-range Line keys hit
the direct slice indexing in `visit_line` and panic instead, while a Line
key whose section exists but is not a Changed section is a successful
no-op. -/
theorem claim_C7_amended :
    (∀ (s : RecordState) (fk : FileKey),
      s.is_read_only = Bool.false →
      s.files[fk.file_idx]? = Option.none →
      ∃ msg, s.toggle_item (.file fk) = .err (.bug msg)) ∧
    (∀ (s : RecordState) (sk : SectionKey),
      s.is_read_only = Bool.false →
      s.files[sk.file_idx]? = Option.none →
      ∃ msg, s.toggle_item (.sec sk) = .err (.bug msg)) ∧
    (∀ (s : RecordState) (sk : SectionKey) (file : File),
      s.is_read_only = Bool.false →
      s.files[sk.file_idx]? = some file →
      file.sections[sk.section_idx]? = Option.none →
      ∃ msg, s.toggle_item (.sec sk) = .err (.bug msg)) ∧
    (∀ (s : RecordState) (lk : LineKey),
      s.is_read_only = Bool.false →
      s.files[lk.file_idx]? = Option.none →
      s.toggle_item (.line lk) = .panicked "index out of bounds") ∧
    (∀ (s : RecordState) (lk : LineKey) (file : File),
      s.is_read_only = Bool.false →
      s.files[lk.file_idx]? = some file →
      file.sections[lk.section_idx]? = Option.none →
      s.toggle_item (.line lk) = .panicked "index out of bounds") ∧
    (∀ (s : RecordState) (lk : LineKey) (file : File)
        (lines : List SectionChangedLine),
      s.is_read_only = Bool.false →
      s.files[lk.file_idx]? = some file →
      file.sections[lk.section_idx]? = some (Section.changed lines) →
      lines[lk.line_idx]? = Option.none →
      s.toggle_item (.line lk) = .panicked "index out of bounds") ∧
    (∀ (s : RecordState) (lk : LineKey) (file : File) (sec0 : Section),
      s.is_read_only = Bool.false →
      s.files[lk.file_idx]? = some file →
      file.sections[lk.section_idx]? = some sec0 →
      (∀ lines, sec0 ≠ Section.changed lines) →
      s.toggle_item (.line lk) = .ok s) :=
  ⟨toggle_item_file_oob, toggle_item_sec_oob_file, toggle_item_sec_oob_section,
    toggle_item_line_oob_file, toggle_item_line_oob_section,
    toggle_item_line_oob_line, toggle_item_line_nonchanged_eq⟩

/-- Witness for the amended C7 at a concrete out-of-range Section key. -/
theorem claim_C7_amended_witness :
    ∃ msg, sample_line_state.toggle_item (.sec ⟨0, 3, 0⟩) = .err (.bug msg) :=
  claim_C7_amended.2.1 sample_line_state ⟨0, 3, 0⟩ rfl rfl

/-- Counterexample to C7 as stated: the out-of-range Line key (0,0,0,5)
makes `toggle_item` panic via direct indexing instead of returning a
`RecordError.Bug`. -/
theorem claim_C7_counterexample :
    sample_line_state.toggle_item (.line ⟨0, 0, 0, 5⟩) =
      .panicked "index out of bounds" ∧
    ¬ ∃ e, sample_line_state.toggle_item (.line ⟨0, 0, 0, 5⟩) = .err e := by
  have h : sample_line_state.toggle_item (.line ⟨0, 0, 0, 5⟩) =
      .panicked "index out of bounds" := by decide
  refine ⟨h, ?_⟩
  rintro ⟨e, he⟩
  rw [h] at he
  exact Outcome.noConfusion he

theorem Outcome.same_result_rfl {α : Type} (x : Outcome α) :
    Outcome.same_result x x := by
  cases x <;> simp [Outcome.same_result]

/-- C10: every key-based lookup and mutation ignores the key's commit
index: toggling two keys that differ only in `commit_idx` produces the
same record state (or fails the same way), and the `file`/`section`
lookups succeed or fail identically. -/
theorem claim_C10 (s : RecordState) (k : SelectionKey) (c₁ c₂ : Nat)
    (fk : FileKey) (sk : SectionKey) :
    Outcome.same_result (s.toggle_item (k.with_commit c₁))
      (s.toggle_item (k.with_commit c₂)) ∧
    Outcome.same_result (s.file { fk with commit_idx := c₁ })
      (s.file { fk with commit_idx := c₂ }) ∧
    Outcome.same_result (s.getSection { sk with commit_idx := c₁ })
      (s.getSection { sk with commit_idx := c₂ }) := by
  refine ⟨?_, ?_, ?_⟩
  · cases hro : s.is_read_only
    case true =>
      rw [toggle_item_read_only s _ hro, toggle_item_read_only s _ hro]
      exact Outcome.same_result_rfl _
    case false =>
    cases k with
    | none => exact Outcome.same_result_rfl _
    | file fk0 =>
        dsimp only [SelectionKey.with_commit]
        cases hf : s.files[fk0.file_idx]? with
        | none =>
            obtain ⟨m₁, h₁⟩ := toggle_item_file_oob s ⟨c₁, fk0.file_idx⟩ hro hf
            obtain ⟨m₂, h₂⟩ := toggle_item_file_oob s ⟨c₂, fk0.file_idx⟩ hro hf
            rw [h₁, h₂]
            trivial
        | some file =>
            rw [toggle_item_file_eq s ⟨c₁, fk0.file_idx⟩ file hro hf,
              toggle_item_file_eq s ⟨c₂, fk0.file_idx⟩ file hro hf]
            exact Outcome.same_result_rfl _
    | sec sk0 =>
        dsimp only [SelectionKey.with_commit]
        cases hf : s.files[sk0.file_idx]? with
        | none =>
            obtain ⟨m₁, h₁⟩ :=
              toggle_item_sec_oob_file s ⟨c₁, sk0.file_idx, sk0.section_idx⟩ hro hf
            obtain ⟨m₂, h₂⟩ :=
              toggle_item_sec_oob_file s ⟨c₂, sk0.file_idx, sk0.section_idx⟩ hro hf
            rw [h₁, h₂]
            trivial
        | some file =>
            cases hs : file.sections[sk0.section_idx]? with
            | none =>
                obtain ⟨m₁, h₁⟩ := toggle_item_sec_oob_section s
                  ⟨c₁, sk0.file_idx, sk0.section_idx⟩ file hro hf hs
                obtain ⟨m₂, h₂⟩ := toggle_item_sec_oob_section s
                  ⟨c₂, sk0.file_idx, sk0.section_idx⟩ file hro hf hs
                rw [h₁, h₂]
                trivial
            | some sec0 =>
                cases sec0 with
                | unchanged lines =>
                    rw [toggle_item_sec_unchanged_eq s
                        ⟨c₁, sk0.file_idx, sk0.section_idx⟩ file lines hro hf hs,
                      toggle_item_sec_unchanged_eq s
                        ⟨c₂, sk0.file_idx, sk0.section_idx⟩ file lines hro hf hs]
                    exact Outcome.same_result_rfl _
                | changed lines =>
                    rw [toggle_item_sec_changed_eq s
                        ⟨c₁, sk0.file_idx, sk0.section_idx⟩ file lines hro hf hs,
                      toggle_item_sec_changed_eq s
                        ⟨c₂, sk0.file_idx, sk0.section_idx⟩ file lines hro hf hs]
                    exact Outcome.same_result_rfl _
                | fileMode c m =>
                    rw [toggle_item_sec_filemode_eq s
                        ⟨c₁, sk0.file_idx, sk0.section_idx⟩ file c m hro hf hs,
                      toggle_item_sec_filemode_eq s
                        ⟨c₂, sk0.file_idx, sk0.section_idx⟩ file c m hro hf hs]
                    exact Outcome.same_result_rfl _
                | binary c od nd =>
                    rw [toggle_item_sec_binary_eq s
                        ⟨c₁, sk0.file_idx, sk0.section_idx⟩ file c od nd hro hf hs,
                      toggle_item_sec_binary_eq s
                        ⟨c₂, sk0.file_idx, sk0.section_idx⟩ file c od nd hro hf hs]
                    exact Outcome.same_result_rfl _
    | line lk0 =>
        dsimp only [SelectionKey.with_commit]
        cases hf : s.files[lk0.file_idx]? with
        | none =>
            rw [toggle_item_line_oob_file s
                ⟨c₁, lk0.file_idx, lk0.section_idx, lk0.line_idx⟩ hro hf,
              toggle_item_line_oob_file s
                ⟨c₂, lk0.file_idx, lk0.section_idx, lk0.line_idx⟩ hro hf]
            trivial
        | some file =>
            cases hs : file.sections[lk0.section_idx]? with
            | none =>
                rw [toggle_item_line_oob_section s
                    ⟨c₁, lk0.file_idx, lk0.section_idx, lk0.line_idx⟩ file hro hf hs,
                  toggle_item_line_oob_section s
                    ⟨c₂, lk0.file_idx, lk0.section_idx, lk0.line_idx⟩ file hro hf hs]
                trivial
            | some sec0 =>
                cases sec0 with
                | changed lines =>
                    cases hl : lines[lk0.line_idx]? with
                    | none =>
                        rw [toggle_item_line_oob_line s
                            ⟨c₁, lk0.file_idx, lk0.section_idx, lk0.line_idx⟩
                            file lines hro hf hs hl,
                          toggle_item_line_oob_line s
                            ⟨c₂, lk0.file_idx, lk0.section_idx, lk0.line_idx⟩
                            file lines hro hf hs hl]
                        trivial
                    | some line =>
                        rw [toggle_item_line_changed_eq s
                            ⟨c₁, lk0.file_idx, lk0.section_idx, lk0.line_idx⟩
                            file lines line hro hf hs hl,
                          toggle_item_line_changed_eq s
                            ⟨c₂, lk0.file_idx, lk0.section_idx, lk0.line_idx⟩
                            file lines line hro hf hs hl]
                        exact Outcome.same_result_rfl _
                | unchanged lines =>
                    rw [toggle_item_line_nonchanged_eq s
                        ⟨c₁, lk0.file_idx, lk0.section_idx, lk0.line_idx⟩
                        file (Section.unchanged lines) hro hf hs
                        (fun l h => Section.noConfusion h),
                      toggle_item_line_nonchanged_eq s
                        ⟨c₂, lk0.file_idx, lk0.section_idx, lk0.line_idx⟩
                        file (Section.unchanged lines) hro hf hs
                        (fun l h => Section.noConfusion h)]
                    exact Outcome.same_result_rfl _
                | fileMode c m =>
                    rw [toggle_item_line_nonchanged_eq s
                        ⟨c₁, lk0.file_idx, lk0.section_idx, lk0.line_idx⟩
                        file (Section.fileMode c m) hro hf hs
                        (fun l h => Section.noConfusion h),
                      toggle_item_line_nonchanged_eq s
                        ⟨c₂, lk0.file_idx, lk0.section_idx, lk0.line_idx⟩
                        file (Section.fileMode c m) hro hf hs
                        (fun l h => Section.noConfusion h)]
                    exact Outcome.same_result_rfl _
                | binary c od nd =>
                    rw [toggle_item_line_nonchanged_eq s
                        ⟨c₁, lk0.file_idx, lk0.section_idx, lk0.line_idx⟩
                        file (Section.binary c od nd) hro hf hs
                        (fun l h => Section.noConfusion h),
                      toggle_item_line_nonchanged_eq s
                        ⟨c₂, lk0.file_idx, lk0.section_idx, lk0.line_idx⟩
                        file (Section.binary c od nd) hro hf hs
                        (fun l h => Section.noConfusion h)]
                    exact Outcome.same_result_rfl _
  · unfold RecordState.file
    dsimp only
    cases hf : s.files[fk.file_idx]? <;> simp [Outcome.same_result]
  · unfold RecordState.getSection RecordState.file
    dsimp only
    cases hf : s.files[sk.file_idx]? with
    | none => simp [Outcome.same_result]
    | some file =>
        dsimp only
        cases hs : file.sections[sk.section_idx]? <;> simp [Outcome.same_result]

/-- Witness for C10 at a concrete key pair differing only in commit index. -/
theorem claim_C10_witness :
    Outcome.same_result
      (sample_line_state.toggle_item ((SelectionKey.line ⟨0, 0, 0, 0⟩).with_commit 0))
      (sample_line_state.toggle_item ((SelectionKey.line ⟨0, 0, 0, 0⟩).with_commit 1)) ∧
    Outcome.same_result (sample_line_state.file { commit_idx := 0, file_idx := 0 })
      (sample_line_state.file { commit_idx := 1, file_idx := 0 }) ∧
    Outcome.same_result
      (sample_line_state.getSection { commit_idx := 0, file_idx := 0, section_idx := 0 })
      (sample_line_state.getSection { commit_idx := 1, file_idx := 0, section_idx := 0 }) :=
  claim_C10 sample_line_state (SelectionKey.line ⟨0, 0, 0, 0⟩) 0 1 ⟨0, 0⟩ ⟨0, 0, 0⟩

theorem num_file_changes_from_eq (r : Recorder) (idxs : List Nat) (result : Nat)
    (h : ∀ i ∈ idxs, i < r.state.files.length) :
    r.num_file_changes_from result idxs =
      .ok (result + idxs.countP r.file_changed_at) := by
  induction idxs generalizing result with
  | nil => simp [Recorder.num_file_changes_from]
  | cons i rest ih =>
      have hi : i < r.state.files.length := h i (by simp)
      have hrest : ∀ j ∈ rest, j < r.state.files.length := fun j hj => h j (by simp [hj])
      obtain ⟨f, hf⟩ : ∃ f, r.state.files[i]? = some f := by
        rw [List.getElem?_eq_getElem hi]
        exact ⟨_, rfl⟩
      have hchanged : r.file_changed_at i = !(f.tristate == Tristate.false) := by
        unfold Recorder.file_changed_at
        rw [hf]
      unfold Recorder.num_file_changes_from RecordState.file_tristate RecordState.file
      dsimp only
      rw [hf]
      dsimp only
      cases ht : f.tristate with
      | false =>
          rw [ih result hrest, List.countP_cons, hchanged, ht]
          simp
      | true =>
          rw [ih (result + 1) hrest, List.countP_cons, hchanged, ht]
          simp [Nat.add_assoc, Nat.add_comm 1]
      | mixed =>
          rw [ih (result + 1) hrest, List.countP_cons, hchanged, ht]
          simp [Nat.add_assoc, Nat.add_comm 1]

theorem num_user_file_changes_eq (r : Recorder) :
    r.num_user_file_changes =
      .ok ((List.range r.state.files.length).countP r.file_changed_at) := by
  unfold Recorder.num_user_file_changes
  rw [num_file_changes_from_eq]
  · simp
  · intro i hi
    exact List.mem_range.mp hi

theorem sum_map_pos {α : Type} (l : List α) (g : α → Nat) :
    0 < (l.map g).sum ↔ ∃ x ∈ l, 0 < g x := by
  induction l with
  | nil => simp
  | cons x xs ih =>
      rw [List.map_cons, List.sum_cons]
      constructor
      · intro hpos
        by_cases hx : 0 < g x
        · exact ⟨x, by simp, hx⟩
        · have hx0 : g x = 0 := Nat.eq_zero_of_not_pos hx
          rw [hx0, Nat.zero_add] at hpos
          rcases ih.mp hpos with ⟨y, hy, hgy⟩
          exact ⟨y, by simp [hy], hgy⟩
      · rintro ⟨y, hy, hgy⟩
        rcases List.mem_cons.mp hy with rfl | hy
        · exact Nat.lt_of_lt_of_le hgy (Nat.le_add_right _ _)
        · exact Nat.lt_of_lt_of_le (ih.mpr ⟨y, hy, hgy⟩) (Nat.le_add_left _ _)

theorem file_changed_count_pos (r : Recorder) :
    0 < (List.range r.state.files.length).countP r.file_changed_at ↔
      ∃ file ∈ r.state.files, file.tristate ≠ Tristate.false := by
  rw [List.countP_pos_iff]
  constructor
  · rintro ⟨i, hi, hp⟩
    have hlt := List.mem_range.mp hi
    obtain ⟨f, hf⟩ : ∃ f, r.state.files[i]? = some f := by
      rw [List.getElem?_eq_getElem hlt]
      exact ⟨_, rfl⟩
    refine ⟨f, List.mem_iff_getElem?.mpr ⟨i, hf⟩, ?_⟩
    unfold Recorder.file_changed_at at hp
    rw [hf] at hp
    simpa using hp
  · rintro ⟨f, hmem, hne⟩
    rcases List.mem_iff_getElem?.mp hmem with ⟨i, hf⟩
    obtain ⟨hlt, -⟩ := List.getElem?_eq_some_iff.mp hf
    refine ⟨i, List.mem_range.mpr hlt, ?_⟩
    unfold Recorder.file_changed_at
    rw [hf]
    simpa using hne

theorem num_user_commit_messages_pos (r : Recorder) (n : Nat)
    (h : r.num_user_commit_messages = .ok n) :
    0 < n ↔ ∃ commit ∈ r.state.commits, ∃ msg,
      commit.message = some msg ∧ msg.isEmpty = Bool.false := by
  unfold Recorder.num_user_commit_messages at h
  rcases h with ⟨⟩
  rw [sum_map_pos]
  constructor
  · rintro ⟨commit, hmem, hpos⟩
    refine ⟨commit, hmem, ?_⟩
    cases hmsg : commit.message with
    | none => rw [hmsg] at hpos; exact absurd hpos (by simp)
    | some m =>
        rw [hmsg] at hpos
        cases he : m.isEmpty
        · exact ⟨m, rfl, he⟩
        · simp [he] at hpos
  · rintro ⟨commit, hmem, msg, hmsg, he⟩
    refine ⟨commit, hmem, ?_⟩
    rw [hmsg]
    simp [he]

/-- C6: with no quit dialog and no help dialog open, QuitCancel produces
`SetQuitDialog (some ..)` exactly when some commit has a non-empty message
or some file's tristate is not False; otherwise it produces the
`QuitCancel` update, which the driver maps to the `Cancelled` error. -/
theorem claim_C6 (r : Recorder)
    (hq : r.quit_dialog = Option.none) (hh : r.help_dialog = Option.none) :
    ((∃ d, r.handle_event Event.quitCancel = .ok (StateUpdate.setQuitDialog (some d))) ↔
      ((∃ commit ∈ r.state.commits, ∃ msg,
          commit.message = some msg ∧ msg.isEmpty = Bool.false) ∨
        ∃ file ∈ r.state.files, file.tristate ≠ Tristate.false)) ∧
    (¬ ((∃ commit ∈ r.state.commits, ∃ msg,
          commit.message = some msg ∧ msg.isEmpty = Bool.false) ∨
        ∃ file ∈ r.state.files, file.tristate ≠ Tristate.false) →
      r.handle_event Event.quitCancel = .ok StateUpdate.quitCancel) ∧
    StateUpdate.quitCancel.driver_error = some RecordError.cancelled := by
  have hmsg := num_user_commit_messages_pos r _ rfl
  have hfil := file_changed_count_pos r
  unfold Recorder.handle_event
  rw [hh, hq, num_user_file_changes_eq]
  unfold Recorder.num_user_commit_messages
  dsimp only
  rw [if_neg (by simp)]
  refine ⟨?_, ?_, rfl⟩
  · constructor
    · rintro ⟨d, hd⟩
      split at hd
      · next h => exact Or.imp hmsg.mp hfil.mp (by simpa using h)
      · next h => exact absurd hd (by simp)
    · intro hC
      refine ⟨_, if_pos ?_⟩
      simp only [Bool.or_eq_true, decide_eq_true_eq]
      exact Or.imp hmsg.mpr hfil.mpr hC
  · intro hnC
    refine if_neg ?_
    simp only [Bool.or_eq_true, decide_eq_true_eq]
    exact fun hor => hnC (Or.imp hmsg.mp hfil.mp hor)

/-- Witness for C6 at the sample recorder (its single line is unchecked, so
every file tristate is False and there is no commit message: the event
cancels immediately). -/
theorem claim_C6_witness :
    (¬ ((∃ commit ∈ sample_recorder.state.commits, ∃ msg,
          commit.message = some msg ∧ msg.isEmpty = Bool.false) ∨
        ∃ file ∈ sample_recorder.state.files, file.tristate ≠ Tristate.false) →
      sample_recorder.handle_event Event.quitCancel = .ok StateUpdate.quitCancel) ∧
    StateUpdate.quitCancel.driver_error = some RecordError.cancelled :=
  (claim_C6 sample_recorder rfl rfl).2

/-- C9 (amended): the no-Line-key property of `expanded_items` holds after
initial expansion and is preserved by `expand_item_ancestors`,
`toggle_expand_item` and by `set_expand_item` when collapsing or when the
key is not a Line; `toggle_expand_all`, however, replaces the set by the
full canonical key list, which contains the Line keys. -/
theorem claim_C9_amended :
    (∀ r : Recorder, ∀ k ∈ (r.expand_initial_items).expanded_items,
      k.is_line = Bool.false) ∧
    (∀ (r : Recorder) (sel : SelectionKey),
      (∀ k ∈ r.expanded_items, k.is_line = Bool.false) →
      ∀ k ∈ (r.expand_item_ancestors sel).expanded_items, k.is_line = Bool.false) ∧
    (∀ (r : Recorder) (sel : SelectionKey) (b : Bool),
      (∀ k ∈ r.expanded_items, k.is_line = Bool.false) →
      (b = Bool.true → sel.is_line = Bool.false) →
      ∀ k ∈ (r.set_expand_item sel b).expanded_items, k.is_line = Bool.false) ∧
    (∀ (r : Recorder) (sel : SelectionKey),
      (∀ k ∈ r.expanded_items, k.is_line = Bool.false) →
      ∀ k ∈ (r.toggle_expand_item sel).expanded_items, k.is_line = Bool.false) := by
  refine ⟨?_, ?_, ?_, ?_⟩
  · intro r k hk
    unfold Recorder.expand_initial_items at hk
    dsimp only at hk
    rcases List.mem_filter.mp (List.mem_toFinset.mp hk) with ⟨-, hp⟩
    cases k <;> simp_all [SelectionKey.is_line]
  · intro r sel h k hk
    unfold Recorder.expand_item_ancestors at hk
    cases sel with
    | none => exact h k hk
    | file fk => exact h k hk
    | sec sk =>
        dsimp only at hk
        rcases Finset.mem_insert.mp hk with rfl | hk
        · rfl
        · exact h k hk
    | line lk =>
        dsimp only at hk
        rcases Finset.mem_insert.mp hk with rfl | hk
        · rfl
        · rcases Finset.mem_insert.mp hk with rfl | hk
          · rfl
          · exact h k hk
  · intro r sel b h hb k hk
    unfold Recorder.set_expand_item at hk
    cases b with
    | true =>
        rw [if_pos rfl] at hk
        rcases Finset.mem_insert.mp hk with rfl | hk
        · exact hb rfl
        · exact h k hk
    | false =>
        rw [if_neg (by simp)] at hk
        exact h k (Finset.mem_of_mem_erase hk)
  · intro r sel h k hk
    unfold Recorder.toggle_expand_item at hk
    cases sel with
    | none => exact h k hk
    | file fk =>
        dsimp only at hk
        split at hk
        · exact h k (Finset.mem_of_mem_erase hk)
        · rcases Finset.mem_insert.mp hk with rfl | hk
          · rfl
          · exact h k hk
    | sec sk =>
        dsimp only at hk
        split at hk
        · exact h k (Finset.mem_of_mem_erase hk)
        · rcases Finset.mem_insert.mp hk with rfl | hk
          · rfl
          · exact h k hk
    | line lk => exact h k hk

/-- Witness for the amended C9: initial expansion of the sample recorder
contains no Line key. -/
theorem claim_C9_amended_witness :
    ∀ k ∈ (sample_recorder.expand_initial_items).expanded_items,
      k.is_line = Bool.false :=
  claim_C9_amended.1 sample_recorder

/-- Counterexample to C9 as stated: toggling expand-all on the sample
recorder (whose expansion set is not yet the full key set) puts the Line
key (0,0,0,0) into `expanded_items`. -/
theorem claim_C9_counterexample :
    SelectionKey.line ⟨0, 0, 0, 0⟩ ∈
      (sample_recorder.toggle_expand_all).expanded_items := by
  decide

theorem find?_first {α : Type} (p : α → Bool) :
    ∀ (l : List α) (a : α), l.find? p = some a →
      ∃ t : Nat, l[t]? = some a ∧ p a = Bool.true ∧
        ∀ (t' : Nat) (b : α), t' < t → l[t']? = some b → p b = Bool.false := by
  intro l
  induction l with
  | nil =>
      intro a h
      simp at h
  | cons x xs ih =>
      intro a h
      cases hp : p x with
      | true =>
          rw [List.find?_cons_of_pos _ hp] at h
          rcases h with ⟨⟩
          refine ⟨0, by simp, hp, ?_⟩
          intro t' b ht' hb
          exact absurd ht' (by omega)
      | false =>
          rw [List.find?_cons_of_neg _ (by simp [hp])] at h
          rcases ih a h with ⟨t, hget, hpa, hfirst⟩
          refine ⟨t + 1, by simpa using hget, hpa, ?_⟩
          intro t' b ht' hb
          cases t' with
          | zero =>
              simp only [List.getElem?_cons_zero, Option.some.injEq] at hb
              rw [← hb]
              exact hp
          | succ u =>
              simp only [List.getElem?_cons_succ] at hb
              exact hfirst u b (by omega) hb

theorem find?_none_all {α : Type} (p : α → Bool) (l : List α)
    (h : l.find? p = Option.none) :
    ∀ (t : Nat) (b : α), l[t]? = some b → p b = Bool.false := by
  intro t b hb
  have hmem : b ∈ l := List.mem_iff_getElem?.mpr ⟨t, hb⟩
  have := List.find?_eq_none.mp h b hmem
  simpa using this

/-- C8 (amended): `advance_to_next_of_kind` works on the visibility-filtered
list from `find_selection`, not on the full canonical enumeration: when
the current selection sits at position i of the visible list, the result
is the first later visible key of the same variant (and the current
selection when there is none); when the current selection is not visible,
the result is `SelectionKey.none`. -/
theorem claim_C8_amended (r : Recorder) :
    (∀ keys, r.find_selection = (keys, Option.none) →
      r.advance_to_next_of_kind = SelectionKey.none) ∧
    (∀ keys i, r.find_selection = (keys, some i) →
      ((r.advance_to_next_of_kind = r.selection_key ∧
        ∀ j k, i < j → keys[j]? = some k →
          r.selection_key.same_kind k = Bool.false) ∨
      (∃ j k, i < j ∧ keys[j]? = some k ∧ r.advance_to_next_of_kind = k ∧
        r.selection_key.same_kind k = Bool.true ∧
        ∀ j' k', i < j' → j' < j → keys[j']? = some k' →
          r.selection_key.same_kind k' = Bool.false))) := by
  constructor
  · intro keys hfs
    unfold Recorder.advance_to_next_of_kind
    rw [hfs]
  · intro keys i hfs
    unfold Recorder.advance_to_next_of_kind
    rw [hfs]
    dsimp only
    cases hfind : (keys.drop (i + 1)).find?
        (fun key => SelectionKey.same_kind r.selection_key key) with
    | none =>
        refine Or.inl ⟨rfl, ?_⟩
        intro j k hij hk
        refine find?_none_all _ _ hfind (j - (i + 1)) k ?_
        rw [List.getElem?_drop]
        have harith : i + 1 + (j - (i + 1)) = j := by omega
        rw [harith]
        exact hk
    | some k0 =>
        rcases find?_first _ _ _ hfind with ⟨t, hget, hp, hfirst⟩
        rw [List.getElem?_drop] at hget
        refine Or.inr ⟨i + 1 + t, k0, by omega, hget, rfl, hp, ?_⟩
        intro j' k' hij' hj' hk'
        refine hfirst (j' - (i + 1)) k' (by omega) ?_
        rw [List.getElem?_drop]
        have harith : i + 1 + (j' - (i + 1)) = j' := by omega
        rw [harith]
        exact hk'

/-- Witness for the amended C8 at the sample recorder: the current selection
(position 1 of the visible list) has no later visible key of its kind, so
the advance stays put. -/
theorem claim_C8_amended_witness :
    (sample_two_recorder.advance_to_next_of_kind =
        sample_two_recorder.selection_key ∧
      ∀ j k, 1 < j →
        ([SelectionKey.file ⟨0, 0⟩, SelectionKey.sec ⟨0, 0, 0⟩,
          SelectionKey.file ⟨0, 1⟩] : List SelectionKey)[j]? = some k →
        SelectionKey.same_kind sample_two_recorder.selection_key k = Bool.false) ∨
    (∃ j k, 1 < j ∧
      ([SelectionKey.file ⟨0, 0⟩, SelectionKey.sec ⟨0, 0, 0⟩,
        SelectionKey.file ⟨0, 1⟩] : List SelectionKey)[j]? = some k ∧
      sample_two_recorder.advance_to_next_of_kind = k ∧
      SelectionKey.same_kind sample_two_recorder.selection_key k = Bool.true ∧
      ∀ j' k', 1 < j' → j' < j →
        ([SelectionKey.file ⟨0, 0⟩, SelectionKey.sec ⟨0, 0, 0⟩,
          SelectionKey.file ⟨0, 1⟩] : List SelectionKey)[j']? = some k' →
        SelectionKey.same_kind sample_two_recorder.selection_key k' = Bool.false) :=
  (claim_C8_amended sample_two_recorder).2
    [SelectionKey.file ⟨0, 0⟩, SelectionKey.sec ⟨0, 0, 0⟩, SelectionKey.file ⟨0, 1⟩]
    1 (by decide)

/-- Counterexample to C8 as stated: on the sample recorder the code stays at
the selected Section key, while the spec's full-canonical-list reading
advances to the (invisible) Section key of the second file. -/
theorem claim_C8_counterexample :
    sample_two_recorder.advance_to_next_of_kind = SelectionKey.sec ⟨0, 0, 0⟩ ∧
    sample_two_recorder.advance_to_next_of_kind_full = SelectionKey.sec ⟨0, 1, 0⟩ ∧
    sample_two_recorder.advance_to_next_of_kind ≠
      sample_two_recorder.advance_to_next_of_kind_full := by
  refine ⟨by decide, by decide, ?_⟩
  intro h
  rw [(by decide : sample_two_recorder.advance_to_next_of_kind =
      SelectionKey.sec ⟨0, 0, 0⟩),
    (by decide : sample_two_recorder.advance_to_next_of_kind_full =
      SelectionKey.sec ⟨0, 1, 0⟩)] at h
  exact absurd h (by decide)

theorem record_set_file_self (s : RecordState) (i : Nat) (file : File)
    (h : s.files[i]? = some file) : s.set_file i file = s := by
  unfold RecordState.set_file
  rw [list_set_self _ _ _ h]

theorem set_file_set_file (s : RecordState) (i : Nat) (f g : File) :
    (s.set_file i f).set_file i g = s.set_file i g := by
  unfold RecordState.set_file
  dsimp only
  rw [List.set_set]

theorem toggle_twice_of (s : RecordState) (k : SelectionKey) (s1 : RecordState)
    (out : Outcome RecordState) (h1 : s.toggle_item k = .ok s1)
    (h2 : s1.toggle_item k = out) : s.toggle_twice k = out := by
  unfold RecordState.toggle_twice
  rw [h1]
  exact h2

theorem no_filemode_set_section (file : File) (i : Nat) (sec : Section)
    (hsec : (match sec with
      | Section.fileMode _ _ => Bool.false
      | _ => Bool.true) = Bool.true)
    (h : file.no_filemode_sections = Bool.true) :
    File.no_filemode_sections
      { file with sections := file.sections.set i sec } = Bool.true := by
  unfold File.no_filemode_sections at h ⊢
  rw [List.all_eq_true] at h ⊢
  intro x hx
  rcases List.mem_or_eq_of_mem_set hx with hm | rfl
  · exact h x hm
  · exact hsec

theorem sec_set_true_collapse (sec : Section)
    (h : sec.is_editable = Bool.true → (sec.set_checked Bool.true).tristate = Tristate.false) :
    ∀ v, sec.set_checked v = sec := by
  cases sec with
  | unchanged lines => intro v; rfl
  | changed lines =>
      cases lines with
      | nil => intro v; rfl
      | cons l ls =>
          exfalso
          have htr := h rfl
          rw [Section.tristate_false_iff] at htr
          simp [Section.set_checked, Section.uniform_checked] at htr
  | fileMode c m =>
      exfalso
      have htr := h rfl
      simp [Section.set_checked, Section.tristate, tristateOfBool] at htr
  | binary c od nd =>
      exfalso
      have htr := h rfl
      simp [Section.set_checked, Section.tristate, tristateOfBool] at htr

theorem file_set_checked_true_restore (file : File)
    (h : (file.set_checked Bool.true).tristate = Tristate.false) :
    file.set_checked Bool.true = file := by
  have hall : ∀ sec ∈ file.sections, sec.set_checked Bool.true = sec := by
    intro sec hmem
    apply sec_set_true_collapse
    intro hed
    have hmem' : sec.set_checked Bool.true ∈ (file.set_checked Bool.true).sections :=
      List.mem_map_of_mem _ hmem
    exact (File.file_tristate_false_iff _).mp h _ hmem'
      (by rw [Section.is_editable_set_checked]; exact hed)
  have hmap : file.sections.map (Section.set_checked · Bool.true) = file.sections := by
    rw [List.map_congr_left hall, List.map_id']
  show ({ file with sections := file.sections.map (Section.set_checked · Bool.true) } : File) = file
  rw [hmap]

theorem file_toggle_toggle (file : File) (ht : file.tristate ≠ Tristate.mixed) :
    file.set_checked
      (match (file.set_checked
          (match file.tristate with
            | Tristate.false => Bool.true
            | _ => Bool.false)).tristate with
        | Tristate.false => Bool.true
        | _ => Bool.false) = file := by
  cases ht0 : file.tristate with
  | mixed => exact absurd ht0 ht
  | false =>
      have huni : ∀ sec ∈ file.sections, sec.uniform_checked Bool.false = Bool.true := by
        intro sec hmem
        cases hed : sec.is_editable with
        | true =>
            exact (Section.tristate_false_iff sec).mp
              ((File.file_tristate_false_iff file).mp ht0 sec hmem hed)
        | false =>
            cases sec with
            | unchanged lines => rfl
            | changed lines => exact absurd hed (by simp [Section.is_editable])
            | fileMode c m => exact absurd hed (by simp [Section.is_editable])
            | binary c od nd => exact absurd hed (by simp [Section.is_editable])
      dsimp only
      cases ht1 : (file.set_checked Bool.true).tristate with
      | false =>
          dsimp only
          exact file_set_checked_true_restore file ht1
      | true =>
          dsimp only
          exact File.file_set_checked_of_uniform file Bool.false huni
      | mixed =>
          dsimp only
          exact File.file_set_checked_of_uniform file Bool.false huni
  | true =>
      have huni : ∀ sec ∈ file.sections, sec.uniform_checked Bool.true = Bool.true := by
        intro sec hmem
        cases hed : sec.is_editable with
        | true =>
            exact Section.tristate_true_uniform sec
              ((File.tristate_true_iff file).mp ht0 |>.2 sec hmem hed)
        | false =>
            cases sec with
            | unchanged lines => rfl
            | changed lines => exact absurd hed (by simp [Section.is_editable])
            | fileMode c m => exact absurd hed (by simp [Section.is_editable])
            | binary c od nd => exact absurd hed (by simp [Section.is_editable])
      dsimp only
      have ht1 : (file.set_checked Bool.false).tristate = Tristate.false := by
        rw [File.file_tristate_false_iff]
        intro sec' hmem' hed'
        rcases List.mem_map.mp hmem' with ⟨sec, hmem, rfl⟩
        apply Section.tristate_set_checked_false
        rwa [Section.is_editable_set_checked] at hed'
      rw [ht1]
      dsimp only
      exact File.file_set_checked_of_uniform file Bool.true huni

theorem set_file_read_only (s : RecordState) (i : Nat) (f : File) :
    (s.set_file i f).is_read_only = s.is_read_only := rfl

theorem toggle_twice_file (s : RecordState) (fk : FileKey) (file : File)
    (hro : s.is_read_only = Bool.false)
    (hf : s.files[fk.file_idx]? = some file)
    (ht : file.tristate ≠ Tristate.mixed) :
    s.toggle_twice (.file fk) = .ok s := by
  obtain ⟨hlen, -⟩ := List.getElem?_eq_some_iff.mp hf
  refine toggle_twice_of s _ _ _ (toggle_item_file_eq s fk file hro hf) ?_
  have hro1 : (s.set_file fk.file_idx
      (file.set_checked (match file.tristate with
        | Tristate.false => Bool.true
        | _ => Bool.false))).is_read_only = Bool.false := hro
  rw [toggle_item_file_eq _ fk _ hro1 (set_file_getElem s fk.file_idx _ hlen)]
  rw [set_file_set_file, File.file_set_checked_twice]
  rw [file_toggle_toggle file ht]
  rw [record_set_file_self s _ file hf]

theorem toggle_twice_sec (s : RecordState) (sk : SectionKey) (file : File)
    (sec0 : Section)
    (hro : s.is_read_only = Bool.false)
    (hf : s.files[sk.file_idx]? = some file)
    (hs : file.sections[sk.section_idx]? = some sec0)
    (hnofm : file.no_filemode_sections = Bool.true)
    (ht : sec0.tristate ≠ Tristate.mixed) :
    s.toggle_twice (.sec sk) = .ok s := by
  obtain ⟨hlen, -⟩ := List.getElem?_eq_some_iff.mp hf
  obtain ⟨hslen, -⟩ := List.getElem?_eq_some_iff.mp hs
  cases sec0 with
  | unchanged lines =>
      have h1 := toggle_item_sec_unchanged_eq s sk file lines hro hf hs
      exact toggle_twice_of s _ _ _ h1 h1
  | fileMode c m =>
      have hmem : Section.fileMode c m ∈ file.sections :=
        List.mem_iff_getElem?.mpr ⟨_, hs⟩
      have := List.all_eq_true.mp hnofm _ hmem
      simp at this
  | binary c od nd =>
      have h1 := toggle_item_sec_binary_eq s sk file c od nd hro hf hs
      refine toggle_twice_of s _ _ _ h1 ?_
      have hf1 := set_file_getElem s sk.file_idx
        ({ file with sections := (file.sections.set sk.section_idx
            (Section.binary (!c) od nd)) }) hlen
      have hs1 : ({ file with sections := (file.sections.set sk.section_idx
          (Section.binary (!c) od nd)) } : File).sections[sk.section_idx]? =
          some (Section.binary (!c) od nd) := by
        dsimp only
        exact List.getElem?_set_self (by simpa using hslen)
      rw [toggle_item_sec_binary_eq _ sk _ (!c) od nd ((set_file_read_only s _ _).trans hro) hf1 hs1]
      simp only [Bool.not_not]
      rw [set_file_set_file]
      rw [List.set_set, list_set_self _ _ _ hs]
      show Outcome.ok (s.set_file sk.file_idx file) = Outcome.ok s
      rw [record_set_file_self s _ file hf]
  | changed lines =>
      cases htr : (Section.changed lines).tristate with
      | mixed => exact absurd htr ht
      | false =>
          have hallf : ∀ l ∈ lines, l.is_checked = Bool.false := by
            have huni := (Section.tristate_false_iff _).mp htr
            simp only [Section.uniform_checked, List.all_eq_true] at huni
            intro l hl
            simpa using huni l hl
          have h1 : s.toggle_item (.sec sk) =
              .ok (s.set_file sk.file_idx
                ({ file with sections := (file.sections.set sk.section_idx
                    (Section.changed (lines.map fun x =>
                      { x with is_checked := Bool.true }))) })) := by
            rw [toggle_item_sec_changed_eq s sk file lines hro hf hs]
            rw [File.apply_changed_coherence_of_no_filemode _ _
              (no_filemode_set_section file _ _ (by simp [Section.set_checked]) hnofm)]
            rw [htr]
            dsimp only [Section.set_checked]
          refine toggle_twice_of s _ _ _ h1 ?_
          have hf1 := set_file_getElem s sk.file_idx
            ({ file with sections := (file.sections.set sk.section_idx
                (Section.changed (lines.map fun x =>
                  { x with is_checked := Bool.true }))) }) hlen
          have hs1 : ({ file with sections := (file.sections.set sk.section_idx
              (Section.changed (lines.map fun x => { x with is_checked := Bool.true }))) }
                : File).sections[sk.section_idx]? =
              some (Section.changed (lines.map fun x => { x with is_checked := Bool.true })) := by
            dsimp only
            exact List.getElem?_set_self (by simpa using hslen)
          rw [toggle_item_sec_changed_eq _ sk _ _ ((set_file_read_only s _ _).trans hro) hf1 hs1]
          rw [File.apply_changed_coherence_of_no_filemode _ _
            (no_filemode_set_section _ _ _ (by simp [Section.set_checked])
              (no_filemode_set_section file _ _ (by simp [Section.set_checked]) hnofm))]
          cases lines with
          | nil =>
              dsimp only [List.map_nil, Section.set_checked]
              rw [set_file_set_file]
              rw [List.set_set, list_set_self _ _ _ hs]
              show Outcome.ok (s.set_file sk.file_idx file) = Outcome.ok s
              rw [record_set_file_self s _ file hf]
          | cons l ls =>
              have htr1 : (Section.changed ((l :: ls).map fun x =>
                  { x with is_checked := Bool.true })).tristate = Tristate.true := by
                rw [Section.changed_tristate_true_iff]
                refine ⟨by simp, ?_⟩
                intro x hx
                rcases List.mem_map.mp hx with ⟨y, -, rfl⟩
                rfl
              rw [htr1]
              dsimp only [Section.set_checked]
              rw [set_file_set_file]
              rw [List.set_set, List.map_map]
              have hcomp : ((fun x => { x with is_checked := Bool.false }) ∘
                  fun x : SectionChangedLine => { x with is_checked := Bool.true }) =
                  fun x : SectionChangedLine => { x with is_checked := Bool.false } := rfl
              rw [hcomp]
              rw [map_set_checked_id _ _ hallf, list_set_self _ _ _ hs]
              show Outcome.ok (s.set_file sk.file_idx file) = Outcome.ok s
              rw [record_set_file_self s _ file hf]
      | true =>
          have hallt : ∀ l ∈ lines, l.is_checked = Bool.true :=
            ((Section.changed_tristate_true_iff lines).mp htr).2
          have h1 : s.toggle_item (.sec sk) =
              .ok (s.set_file sk.file_idx
                ({ file with sections := (file.sections.set sk.section_idx
                    (Section.changed (lines.map fun x =>
                      { x with is_checked := Bool.false }))) })) := by
            rw [toggle_item_sec_changed_eq s sk file lines hro hf hs]
            rw [File.apply_changed_coherence_of_no_filemode _ _
              (no_filemode_set_section file _ _ (by simp [Section.set_checked]) hnofm)]
            rw [htr]
            dsimp only [Section.set_checked]
          refine toggle_twice_of s _ _ _ h1 ?_
          have hf1 := set_file_getElem s sk.file_idx
            ({ file with sections := (file.sections.set sk.section_idx
                (Section.changed (lines.map fun x =>
                  { x with is_checked := Bool.false }))) }) hlen
          have hs1 : ({ file with sections := (file.sections.set sk.section_idx
              (Section.changed (lines.map fun x => { x with is_checked := Bool.false }))) }
                : File).sections[sk.section_idx]? =
              some (Section.changed (lines.map fun x => { x with is_checked := Bool.false })) := by
            dsimp only
            exact List.getElem?_set_self (by simpa using hslen)
          rw [toggle_item_sec_changed_eq _ sk _ _ ((set_file_read_only s _ _).trans hro) hf1 hs1]
          rw [File.apply_changed_coherence_of_no_filemode _ _
            (no_filemode_set_section _ _ _ (by simp [Section.set_checked])
              (no_filemode_set_section file _ _ (by simp [Section.set_checked]) hnofm))]
          have htr1 : (Section.changed (lines.map fun x =>
              { x with is_checked := Bool.false })).tristate = Tristate.false := by
            rw [Section.tristate_false_iff]
            simp [Section.uniform_checked, List.all_map, Function.comp]
          rw [htr1]
          dsimp only [Section.set_checked]
          rw [set_file_set_file]
          rw [List.set_set, List.map_map]
          have hcomp : ((fun x => { x with is_checked := Bool.true }) ∘
              fun x : SectionChangedLine => { x with is_checked := Bool.false }) =
              fun x : SectionChangedLine => { x with is_checked := Bool.true } := rfl
          rw [hcomp]
          rw [map_set_checked_id _ _ hallt, list_set_self _ _ _ hs]
          show Outcome.ok (s.set_file sk.file_idx file) = Outcome.ok s
          rw [record_set_file_self s _ file hf]

theorem toggle_twice_line (s : RecordState) (lk : LineKey) (file : File)
    (sec0 : Section)
    (hro : s.is_read_only = Bool.false)
    (hf : s.files[lk.file_idx]? = some file)
    (hs : file.sections[lk.section_idx]? = some sec0)
    (hnofm : file.no_filemode_sections = Bool.true)
    (hlb : ∀ lines, sec0 = Section.changed lines → lk.line_idx < lines.length) :
    s.toggle_twice (.line lk) = .ok s := by
  obtain ⟨hlen, -⟩ := List.getElem?_eq_some_iff.mp hf
  obtain ⟨hslen, -⟩ := List.getElem?_eq_some_iff.mp hs
  cases sec0 with
  | unchanged lines0 =>
      have h1 := toggle_item_line_nonchanged_eq s lk file (Section.unchanged lines0)
        hro hf hs (fun l h => Section.noConfusion h)
      exact toggle_twice_of s _ _ _ h1 h1
  | fileMode c m =>
      have h1 := toggle_item_line_nonchanged_eq s lk file (Section.fileMode c m)
        hro hf hs (fun l h => Section.noConfusion h)
      exact toggle_twice_of s _ _ _ h1 h1
  | binary c od nd =>
      have h1 := toggle_item_line_nonchanged_eq s lk file (Section.binary c od nd)
        hro hf hs (fun l h => Section.noConfusion h)
      exact toggle_twice_of s _ _ _ h1 h1
  | changed lines =>
      have hlt : lk.line_idx < lines.length := hlb lines rfl
      obtain ⟨line, hl⟩ : ∃ line, lines[lk.line_idx]? = some line := by
        rw [List.getElem?_eq_getElem hlt]
        exact ⟨_, rfl⟩
      have h1 : s.toggle_item (.line lk) =
          .ok (s.set_file lk.file_idx
            ({ file with sections := (file.sections.set lk.section_idx
                (Section.changed (lines.set lk.line_idx
                  { line with is_checked := !line.is_checked }))) })) := by
        rw [toggle_item_line_changed_eq s lk file lines line hro hf hs hl]
        rw [File.apply_changed_coherence_of_no_filemode _ _
          (no_filemode_set_section file _ _ (by simp) hnofm)]
      refine toggle_twice_of s _ _ _ h1 ?_
      have hf1 := set_file_getElem s lk.file_idx
        ({ file with sections := (file.sections.set lk.section_idx
            (Section.changed (lines.set lk.line_idx
              { line with is_checked := !line.is_checked }))) }) hlen
      have hs1 : ({ file with sections := (file.sections.set lk.section_idx
          (Section.changed (lines.set lk.line_idx
            { line with is_checked := !line.is_checked }))) } : File).sections[lk.section_idx]? =
          some (Section.changed (lines.set lk.line_idx
            { line with is_checked := !line.is_checked })) := by
        dsimp only
        exact List.getElem?_set_self (by simpa using hslen)
      have hl1 : (lines.set lk.line_idx
          { line with is_checked := !line.is_checked })[lk.line_idx]? =
          some { line with is_checked := !line.is_checked } :=
        List.getElem?_set_self (by simpa using hlt)
      rw [toggle_item_line_changed_eq _ lk _ _ _
        ((set_file_read_only s _ _).trans hro) hf1 hs1 hl1]
      rw [File.apply_changed_coherence_of_no_filemode _ _
        (no_filemode_set_section _ _ _ (by simp)
          (no_filemode_set_section file _ _ (by simp) hnofm))]
      rw [set_file_set_file]
      rw [List.set_set, List.set_set]
      simp only [Bool.not_not]
      have hline : ({ line with is_checked := line.is_checked } : SectionChangedLine) = line := rfl
      rw [hline, list_set_self _ _ _ hl, list_set_self _ _ _ hs]
      show Outcome.ok (s.set_file lk.file_idx file) = Outcome.ok s
      rw [record_set_file_self s _ file hf]

/-- C4 (amended): double toggle restores the record state exactly when the
coherence rules cannot fire and the toggled item's tristate is not
Partial: for an in-bounds File key with non-Partial file tristate; for an
in-bounds Section key whose file has no FileMode pseudo-section and whose
section tristate is not Partial; and for an in-bounds Line key whose file
has no FileMode pseudo-section.  (For Partial tristates and for files
with FileMode sections the counterexample shows double toggle is not the
identity.) -/
theorem claim_C4_amended :
    (∀ (s : RecordState) (fk : FileKey) (file : File),
      s.is_read_only = Bool.false →
      s.files[fk.file_idx]? = some file →
      file.tristate ≠ Tristate.mixed →
      s.toggle_twice (.file fk) = .ok s) ∧
    (∀ (s : RecordState) (sk : SectionKey) (file : File) (sec0 : Section),
      s.is_read_only = Bool.false →
      s.files[sk.file_idx]? = some file →
      file.sections[sk.section_idx]? = some sec0 →
      file.no_filemode_sections = Bool.true →
      sec0.tristate ≠ Tristate.mixed →
      s.toggle_twice (.sec sk) = .ok s) ∧
    (∀ (s : RecordState) (lk : LineKey) (file : File) (sec0 : Section),
      s.is_read_only = Bool.false →
      s.files[lk.file_idx]? = some file →
      file.sections[lk.section_idx]? = some sec0 →
      file.no_filemode_sections = Bool.true →
      (∀ lines, sec0 = Section.changed lines → lk.line_idx < lines.length) →
      s.toggle_twice (.line lk) = .ok s) :=
  ⟨toggle_twice_file, toggle_twice_sec, toggle_twice_line⟩

/-- Witness for the amended C4: double-toggling the single line of the
sample state restores it. -/
theorem claim_C4_amended_witness :
    sample_line_state.toggle_twice (.line ⟨0, 0, 0, 0⟩) = .ok sample_line_state :=
  claim_C4_amended.2.2 sample_line_state ⟨0, 0, 0, 0⟩ sample_line_file
    (Section.changed [⟨Bool.false, ChangeType.added, "x"⟩]) rfl rfl rfl rfl
    (fun lines h => by cases h; decide)

/-- Counterexample to C4 as stated: on the partially checked sample file,
toggling the File key twice ends with both lines checked instead of the
original mixed state. -/
theorem claim_C4_counterexample :
    sample_mixed_state.toggle_twice (.file ⟨0, 0⟩) ≠ .ok sample_mixed_state := by
  intro h
  rw [(by decide : sample_mixed_state.toggle_twice (.file ⟨0, 0⟩) =
    .ok ⟨Bool.false, [⟨Option.none⟩, ⟨Option.none⟩],
      [⟨Option.none, "a", FileMode.unix 420,
        [Section.changed [⟨Bool.true, ChangeType.added, "x"⟩,
          ⟨Bool.true, ChangeType.added, "y"⟩]]⟩]⟩)] at h
  exact absurd h (by decide)
